import Mathlib

/-!
# Verification of the Power Tab Editor playback core

A shallow embedding of `source/midiplayer.cpp` and
`source/audio/repeatcontroller.cpp`, together with theorems checking the
natural-language specification of the playback core against the code.

Conventions used throughout:
* C++ `double` values (timestamps, durations, tempos) are modelled as `ℚ`.
* Machine integers are modelled as `ℕ`/`ℤ`; the quantities involved (MIDI
  pitches, fret numbers, repeat counts) are small, so overflow does not occur
  on the inputs considered and is not modelled.
* The mutable state of the C++ classes is threaded explicitly: member
  variables become structure fields and each member function returns the
  updated structure next to its C++ return value.
* Ordered `std::map`/`std::multimap` containers become association lists kept
  in key order (insertion order among equal keys, as in a multimap).
* Definitions that translate code which is not part of the two source files
  (helper classes of the score model such as `Repeat`, `DirectionSymbol` or
  `Staff` accessors) carry a doc comment starting with `Modelled from the
  spec:` and follow the specification's wording for them.
-/

namespace PTE



/-- Modelled from the spec: `SystemLocation` is the pair
(systemIndex, positionIndex); its total order compares the system index first
and the position index second (`systemlocation.cpp` is not among the
sources). -/
structure SystemLocation where
  systemIndex : ℕ
  positionIndex : ℕ
  deriving DecidableEq, Repr

/-- Strict lexicographic order on `SystemLocation`, as a boolean. -/
def SystemLocation.ltb (a b : SystemLocation) : Bool :=
  a.systemIndex < b.systemIndex ||
    (a.systemIndex == b.systemIndex && a.positionIndex < b.positionIndex)

/-- Non-strict lexicographic order on `SystemLocation`, as a boolean. -/
def SystemLocation.leb (a b : SystemLocation) : Bool :=
  a.systemIndex < b.systemIndex ||
    (a.systemIndex == b.systemIndex && a.positionIndex ≤ b.positionIndex)

namespace Direction

def coda : ℕ := 0
def doubleCoda : ℕ := 1
def segno : ℕ := 2
def segnoSegno : ℕ := 3
def fine : ℕ := 4
def daCapo : ℕ := 5
def dalSegno : ℕ := 6
def dalSegnoSegno : ℕ := 7
def toCoda : ℕ := 8
def toDoubleCoda : ℕ := 9
def daCapoAlCoda : ℕ := 10
def daCapoAlDoubleCoda : ℕ := 11
def dalSegnoAlCoda : ℕ := 12
def dalSegnoAlDoubleCoda : ℕ := 13
def dalSegnoSegnoAlCoda : ℕ := 14
def dalSegnoSegnoAlDoubleCoda : ℕ := 15
def daCapoAlFine : ℕ := 16
def dalSegnoAlFine : ℕ := 17
def dalSegnoSegnoAlFine : ℕ := 18

/-- Modelled from the spec: the "no active symbol" navigation state
(`Direction::activeNone`; the enum lives in `direction.h`, which is not among
the sources; the active-symbol field is a 2-bit field per
`Direction::GetSymbol`, so the four states are 0..3). -/
def activeNone : ℕ := 0

/-- Modelled from the spec: the "Da-Capo-in-effect" navigation state. -/
def activeDaCapo : ℕ := 1

/-- Modelled from the spec: the "Dal-Segno-in-effect" navigation state. -/
def activeDalSegno : ℕ := 2

/-- Modelled from the spec: the "Dal-Segno-Segno-in-effect" navigation
state. -/
def activeDalSegnoSegno : ℕ := 3

end Direction

/-- One musical direction symbol: its type, the navigation state that must be
active for it to trigger, and the repeat number that must be active
(0 = none, per the documentation of `Direction::AddSymbol` in
`direction.cpp`). -/
structure DirectionSymbol where
  symbolType : ℕ
  activeSymbol : ℕ
  repeatNumber : ℕ
  deriving DecidableEq, Repr

/-- Modelled from the spec: `DirectionSymbol::shouldPerformDirection`
(`audio/directionsymbol.h` is not among the sources).  Per the spec, a
direction's precondition is satisfied when its required "active symbol" state
matches the controller's current navigation state and its required
repeat-number, if any (0 = none), matches the active group's current pass
count. -/
def DirectionSymbol.shouldPerformDirection (d : DirectionSymbol)
    (currentActiveSymbol currentRepeatNumber : ℕ) : Bool :=
  d.activeSymbol == currentActiveSymbol &&
    (d.repeatNumber == 0 || d.repeatNumber == currentRepeatNumber)

/-- Modelled from the spec: a repeat group (`audio/repeat.h` is not among the
sources).  It is anchored at a start location, holds the repeat-end barlines
attached to it (end location with repeat count) and a per-run pass counter. -/
structure Repeat where
  startLocation : SystemLocation
  endBars : List (SystemLocation × ℕ)
  activeRepeat : ℕ
  deriving DecidableEq, Repr

/-- Modelled from the spec: `Repeat::getActiveRepeat` returns the group's
current pass count. -/
def Repeat.getActiveRepeat (r : Repeat) : ℕ := r.activeRepeat

/-- Modelled from the spec: `Repeat::reset` resets the per-run pass counter
to zero ("reset to zero when navigated away from by a non-repeat
direction"). -/
def Repeat.reset (r : Repeat) : Repeat := { r with activeRepeat := 0 }

/-- Modelled from the spec: `Repeat::performRepeat` (`audio/repeat.cpp` is
not among the sources).  Per the spec, a repeat occurs when the queried
location coincides with one of the group's end-barlines and the group's pass
count is below that barline's repeat count; then the start location is
returned and the pass count incremented, otherwise the location is returned
unchanged.  The alternate-ending redirection mentioned by the spec is left
out of the model: the spec does not define which ending is "the next active
ending", and no property proved below depends on it. -/
def Repeat.performRepeat (r : Repeat) (loc : SystemLocation) :
    Repeat × SystemLocation :=
  match r.endBars.find? (fun e => decide (e.1 = loc)) with
  | some e =>
      if r.activeRepeat < e.2 then
        ({ r with activeRepeat := r.activeRepeat + 1 }, r.startLocation)
      else (r, loc)
  | none => (r, loc)

/-- The state of a `RepeatController`.  `systems` summarises the read-only
score as the position count of each system (all the controller reads from the
score after construction); `repeats` is the ordered repeat-group map,
`directions` the ordered multimap from location to direction symbol,
`symbolLocations` the multimap from symbol type to location, and
`activeSymbol` the current navigation state. -/
structure RepeatController where
  systems : List ℕ
  repeats : List (SystemLocation × Repeat)
  directions : List (SystemLocation × DirectionSymbol)
  symbolLocations : List (ℕ × SystemLocation)
  activeSymbol : ℕ
  deriving DecidableEq, Repr

/-- Placeholder entry used for the (unreachable) out-of-range map accesses;
`checkForRepeat` only dereferences the repeat map when it is non-empty. -/
def dummyRepeatEntry : SystemLocation × Repeat :=
  (⟨0, 0⟩, ⟨⟨0, 0⟩, [], 0⟩)

/-- The embedding of `RepeatController::getPreviousRepeatGroup`: `upper_bound(location)`,
stepped back once unless it is `begin()`.  On the key-ordered list this is
the index of the last group whose start is `≤ location`, or `0` when every
group starts after `location`. -/
def getPreviousRepeatGroupIdx (repeats : List (SystemLocation × Repeat))
    (loc : SystemLocation) : ℕ :=
  let ub := (repeats.takeWhile (fun e => SystemLocation.leb e.1 loc)).length
  if ub = 0 then 0 else ub - 1

/-- The common tail of `RepeatController::performMusicalDirection`: looks up
the first indexed occurrence of the target symbol type in `symbolLocations`,
falling back to the score start `(0,0)` when the score does not contain it
(the reported "could not find the symbol" error). -/
def symbolJumpTarget (symbolLocations : List (ℕ × SystemLocation))
    (symbolType : ℕ) : SystemLocation :=
  match symbolLocations.find? (fun e => e.1 == symbolType) with
  | some e => e.2
  | none => ⟨0, 0⟩

/-- The embedding of `RepeatController::performMusicalDirection`: resolves the jump target of
a direction symbol and updates the controller's active navigation state.
`Fine` jumps past the end of the score; the Da Capo family returns to (0,0);
the Dal Segno / Dal Segno Segno / To (Double) Coda families look up the first
occurrence of their target symbol.  The C++ `switch` leaves `nextSymbol` at
`0` (= coda) for any other symbol type, so the final branch looks up a coda
location. -/
def RepeatController.performMusicalDirection (st : RepeatController)
    (directionType : ℕ) : RepeatController × SystemLocation :=
  if directionType = Direction.fine then
    (st, ⟨st.systems.length - 1, st.systems.getD (st.systems.length - 1) 0⟩)
  else if directionType = Direction.daCapo ∨
          directionType = Direction.daCapoAlCoda ∨
          directionType = Direction.daCapoAlDoubleCoda ∨
          directionType = Direction.daCapoAlFine then
    ({ st with activeSymbol := Direction.activeDaCapo }, ⟨0, 0⟩)
  else if directionType = Direction.dalSegno ∨
          directionType = Direction.dalSegnoAlCoda ∨
          directionType = Direction.dalSegnoAlDoubleCoda ∨
          directionType = Direction.dalSegnoAlFine then
    ({ st with activeSymbol := Direction.activeDalSegno },
     symbolJumpTarget st.symbolLocations Direction.segno)
  else if directionType = Direction.dalSegnoSegno ∨
          directionType = Direction.dalSegnoSegnoAlCoda ∨
          directionType = Direction.dalSegnoSegnoAlDoubleCoda ∨
          directionType = Direction.dalSegnoSegnoAlFine then
    ({ st with activeSymbol := Direction.activeDalSegnoSegno },
     symbolJumpTarget st.symbolLocations Direction.segnoSegno)
  else if directionType = Direction.toCoda then
    (st, symbolJumpTarget st.symbolLocations Direction.coda)
  else if directionType = Direction.toDoubleCoda then
    (st, symbolJumpTarget st.symbolLocations Direction.doubleCoda)
  else (st, symbolJumpTarget st.symbolLocations 0)

/-- Resets the pass counter of the repeat group at index `i` (the
`activeRepeat.reset()` call made through the reference obtained by
`getPreviousRepeatGroup`). -/
def resetRepeatAt (l : List (SystemLocation × Repeat)) (i : ℕ) :
    List (SystemLocation × Repeat) :=
  match l.get? i with
  | some e => l.set i (e.1, e.2.reset)
  | none => l

/-- Step 2 of `RepeatController::checkForRepeat` — the "check for directions
at location" block.  Reproduces the code exactly: `equal_range` is taken at
the current location, but the guard only checks `first != end()`, so the
entry examined is the first one at a location `≥` the current location (the
head of `dropWhile (· < loc)` on the key-ordered multimap), not necessarily
one *at* the current location.  A direction is erased (and the active group's
pass counter reset) only when the resolved target differs from the current
location; the `activeSymbol` side effect of `performMusicalDirection` sticks
either way.  The third component is ghost instrumentation for the proofs: the
direction entry that was erased, when one was performed. -/
def RepeatController.directionCheck (st : RepeatController)
    (loc : SystemLocation) (gidx : ℕ) :
    RepeatController × SystemLocation ×
      Option (SystemLocation × DirectionSymbol) :=
  match st.directions.dropWhile (fun e => SystemLocation.ltb e.1 loc) with
  | [] => (st, loc, none)
  | entry :: rest =>
      if entry.2.shouldPerformDirection st.activeSymbol
          ((st.repeats.getD gidx dummyRepeatEntry).2).getActiveRepeat then
        if (st.performMusicalDirection entry.2.symbolType).2 ≠ loc then
          ({ (st.performMusicalDirection entry.2.symbolType).1 with
              directions :=
                st.directions.takeWhile (fun e => SystemLocation.ltb e.1 loc)
                  ++ rest,
              repeats :=
                resetRepeatAt
                  (st.performMusicalDirection entry.2.symbolType).1.repeats
                  gidx },
           (st.performMusicalDirection entry.2.symbolType).2, some entry)
        else ((st.performMusicalDirection entry.2.symbolType).1,
              (st.performMusicalDirection entry.2.symbolType).2, none)
      else (st, loc, none)

/-- The body of `RepeatController::checkForRepeat` after the empty-map guard:
the direction check (step 2), then, when no direction moved the location, the
repeat query on the active group (step 3).  Returns the updated controller,
the new location (equal to the input when no jump occurs), and the performed
direction entry (ghost). -/
def RepeatController.checkForRepeatCore (st : RepeatController)
    (loc : SystemLocation) :
    RepeatController × SystemLocation ×
      Option (SystemLocation × DirectionSymbol) :=
  if (st.directionCheck loc (getPreviousRepeatGroupIdx st.repeats loc)).2.1
      = loc then
    ({ (st.directionCheck loc (getPreviousRepeatGroupIdx st.repeats loc)).1 with
        repeats :=
          ((st.directionCheck loc
              (getPreviousRepeatGroupIdx st.repeats loc)).1.repeats).set
            (getPreviousRepeatGroupIdx st.repeats loc)
            ((((st.directionCheck loc
                  (getPreviousRepeatGroupIdx st.repeats loc)).1.repeats).getD
                (getPreviousRepeatGroupIdx st.repeats loc) dummyRepeatEntry).1,
             ((((st.directionCheck loc
                    (getPreviousRepeatGroupIdx st.repeats loc)).1.repeats).getD
                  (getPreviousRepeatGroupIdx st.repeats loc)
                  dummyRepeatEntry).2.performRepeat loc).1) },
     ((((st.directionCheck loc
            (getPreviousRepeatGroupIdx st.repeats loc)).1.repeats).getD
          (getPreviousRepeatGroupIdx st.repeats loc)
          dummyRepeatEntry).2.performRepeat loc).2,
     (st.directionCheck loc (getPreviousRepeatGroupIdx st.repeats loc)).2.2)
  else st.directionCheck loc (getPreviousRepeatGroupIdx st.repeats loc)

/-- The embedding of `RepeatController::checkForRepeat`.  The C++ out-parameters `newSystem`
and `newPos` become the last two arguments (their values on entry) and the
last two components of the result (their values on exit); the `Bool` is the
C++ return value.  They are assigned only on the `true` path. -/
def RepeatController.checkForRepeat (st : RepeatController)
    (currentSystem currentPos newSystem newPos : ℕ) :
    RepeatController × Bool × ℕ × ℕ :=
  if st.repeats.isEmpty then (st, false, newSystem, newPos)
  else
    if (st.checkForRepeatCore ⟨currentSystem, currentPos⟩).2.1
        = (⟨currentSystem, currentPos⟩ : SystemLocation) then
      ((st.checkForRepeatCore ⟨currentSystem, currentPos⟩).1, false,
       newSystem, newPos)
    else
      ((st.checkForRepeatCore ⟨currentSystem, currentPos⟩).1, true,
       (st.checkForRepeatCore ⟨currentSystem, currentPos⟩).2.1.systemIndex,
       (st.checkForRepeatCore ⟨currentSystem, currentPos⟩).2.1.positionIndex)

/-- One playback run's sequence of `checkForRepeat` queries, threading the
controller state, logging the direction entries that were performed
(erased). -/
def runQueries (st : RepeatController) :
    List SystemLocation → List (SystemLocation × DirectionSymbol)
  | [] => []
  | loc :: qs =>
      if st.repeats.isEmpty then runQueries st qs
      else
        match (st.checkForRepeatCore loc).2.2 with
        | some e => e :: runQueries (st.checkForRepeatCore loc).1 qs
        | none => runQueries (st.checkForRepeatCore loc).1 qs

/-- Occurrences of the entry `e` in a direction list. -/
def countEntry (e : SystemLocation × DirectionSymbol)
    (l : List (SystemLocation × DirectionSymbol)) : ℕ :=
  l.countP (fun x => decide (x = e))

/-- A controller holding a single "D.C." direction indexed exactly at
(0, 2). -/
def witnessController : RepeatController :=
  { systems := [8],
    repeats := [(⟨0, 0⟩, ⟨⟨0, 0⟩, [], 0⟩)],
    directions := [(⟨0, 2⟩, ⟨Direction.daCapo, Direction.activeNone, 0⟩)],
    symbolLocations := [(Direction.daCapo, ⟨0, 2⟩)],
    activeSymbol := Direction.activeNone }

/-- A controller holding a single "D.C." direction indexed at (0, 5) — and
nowhere else — inside a one-system score of 10 positions, with no repeat
barlines. -/
def offsiteController : RepeatController :=
  { systems := [10],
    repeats := [(⟨0, 0⟩, ⟨⟨0, 0⟩, [], 0⟩)],
    directions := [(⟨0, 5⟩, ⟨Direction.daCapo, Direction.activeNone, 0⟩)],
    symbolLocations := [(Direction.daCapo, ⟨0, 5⟩)],
    activeSymbol := Direction.activeNone }

/-- A controller with no directions and no repeat end bars: every query
returns `false`. -/
def idleController : RepeatController :=
  { systems := [4],
    repeats := [(⟨0, 0⟩, ⟨⟨0, 0⟩, [], 0⟩)],
    directions := [],
    symbolLocations := [],
    activeSymbol := Direction.activeNone }

/-- A tempo marker: location, beats per minute, beat unit and the
alteration-of-pace flag. -/
structure TempoMarker where
  system : ℕ
  position : ℕ
  beatsPerMinute : ℚ
  beatType : ℚ
  isAlterationOfPace : Bool
  deriving DecidableEq, Repr

namespace TempoMarker

/-- Modelled from the spec: beat units are encoded as note-type divisors
(whole = 1, half = 2, quarter = 4, ...) per the spec's "beat unit";
`tempomarker.h` is not among the sources.  Only the ratio
`quarter / beatType` enters the code's tempo formula. -/
def quarter : ℚ := 4

/-- Modelled from the spec: "Default 120 BPM ... when none found". -/
def DEFAULT_BEATS_PER_MINUTE : ℚ := 120

/-- Modelled from the spec: "... / quarter-note beat unit when none
found". -/
def DEFAULT_BEAT_TYPE : ℚ := quarter

end TempoMarker

/-- The embedding of `MidiPlayer::getCurrentTempoMarker`: an ordered scan over all tempo
markers of the score, keeping the last marker whose system index is `≤` the
current system index AND whose position index is `≤` the queried position
index, skipping alteration-of-pace markers. -/
def getCurrentTempoMarker (tempoMarkers : List TempoMarker)
    (currentSystemIndex positionIndex : ℕ) : Option TempoMarker :=
  tempoMarkers.foldl
    (fun acc t =>
      if t.system ≤ currentSystemIndex && t.position ≤ positionIndex &&
          !t.isAlterationOfPace then some t
      else acc)
    none

/-- The embedding of `MidiPlayer::getCurrentTempo`: the duration of a quarter note in
milliseconds at the active tempo marker (or the defaults). -/
def getCurrentTempo (tempoMarkers : List TempoMarker)
    (currentSystemIndex positionIndex : ℕ) : ℚ :=
  match getCurrentTempoMarker tempoMarkers currentSystemIndex positionIndex with
  | some m => 60 / m.beatsPerMinute * 1000 * (TempoMarker.quarter / m.beatType)
  | none => 60 / TempoMarker.DEFAULT_BEATS_PER_MINUTE * 1000 *
      (TempoMarker.quarter / TempoMarker.DEFAULT_BEAT_TYPE)

/-- The tempo-marker selection as worded by the specification, for
comparison with `getCurrentTempoMarker`: the latest marker (ordered scan,
last match wins) whose *location* is `≤` the queried location in
`SystemLocation` order, skipping alteration-of-pace markers. -/
def specTempoMarker (tempoMarkers : List TempoMarker)
    (currentSystemIndex positionIndex : ℕ) : Option TempoMarker :=
  tempoMarkers.foldl
    (fun acc t =>
      if SystemLocation.leb ⟨t.system, t.position⟩
            ⟨currentSystemIndex, positionIndex⟩ &&
          !t.isAlterationOfPace then some t
      else acc)
    none

/-- A tempo marker in system 0 at position 10 (location (0,10)), 100 BPM,
quarter-note beat unit, not an alteration of pace. -/
def laterPositionMarker : TempoMarker :=
  ⟨0, 10, 100, TempoMarker.quarter, false⟩

namespace BendEvent

/-- Modelled from the spec: the fixed center ("no bend") value of the
integer pitch-bend scale (`bendevent.h` is not among the sources); the MIDI
pitch-wheel midpoint. -/
def DEFAULT_BEND : ℤ := 64

/-- Modelled from the spec: "each unit represents a quarter-tone", so the
scale factor from quarter-tone steps to scale units is 1 and the C++ `floor`
of `DEFAULT_BEND + pitch * BEND_QUARTER_TONE` is exact. -/
def BEND_QUARTER_TONE : ℤ := 1

end BendEvent

/-- One intermediate pitch-bend sample (`MidiPlayer::BendEventInfo`). -/
structure BendEventInfo where
  timestamp : ℚ
  pitchBendAmount : ℤ
  deriving DecidableEq, Repr

/-- The embedding of `MidiPlayer::generateGradualBend`: one Bend sample per unit step between
`startBendAmount` and `releaseBendAmount`; sample `i` (1-based) carries
amount `startBendAmount ± i` and timestamp
`startTime + (duration / numBendEvents) * i`. -/
def generateGradualBend (startTime duration : ℚ)
    (startBendAmount releaseBendAmount : ℤ) : List BendEventInfo :=
  (List.range (startBendAmount - releaseBendAmount).natAbs).map (fun (i : ℕ) =>
    { timestamp := startTime +
        duration / (((startBendAmount - releaseBendAmount).natAbs : ℕ) : ℚ) *
          ((i : ℚ) + 1),
      pitchBendAmount :=
        if startBendAmount < releaseBendAmount then
          startBendAmount + ((i : ℤ) + 1)
        else startBendAmount - ((i : ℤ) + 1) })

namespace Note

/-- Modelled from the spec: the bend type tags of `note.h` (not among the
sources).  The numeric codes are arbitrary but distinct; the code only
compares them for equality. -/
def normalBend : ℕ := 0
def bendAndRelease : ℕ := 1
def bendAndHold : ℕ := 2
def preBend : ℕ := 3
def preBendAndRelease : ℕ := 4
def preBendAndHold : ℕ := 5
def gradualRelease : ℕ := 6
def immediateRelease : ℕ := 7

/-- Modelled from the spec: the slide-out-of type tags of `note.h`. -/
def slideOutOfLegatoSlide : ℕ := 1
def slideOutOfShiftSlide : ℕ := 2
def slideOutOfDownwards : ℕ := 3
def slideOutOfUpwards : ℕ := 4

/-- Modelled from the spec: the slide-into type tags of `note.h`. -/
def slideIntoFromBelow : ℕ := 1
def slideIntoFromAbove : ℕ := 2

end Note

/-- The bend data of a note, as read by `Note::GetBend` (type, bent pitch
and release pitch in quarter-tone steps, duration class; the two draw points
are unused by the player). -/
structure BendData where
  type : ℕ
  bentPitch : ℕ
  releasePitch : ℕ
  bendDuration : ℕ
  deriving DecidableEq, Repr

/-- The embedding of `MidiPlayer::generateBends`: emits the bend samples for one note and
returns the updated `activePitchBend` carried to the next note of the voice.
On the modelled scale (`BEND_QUARTER_TONE = 1`) the C++ `floor` calls are
exact, so `bendAmount = DEFAULT_BEND + bentPitch` and
`releaseAmount = DEFAULT_BEND + releasePitch`. -/
def generateBends (activePitchBend : ℤ) (startTime duration currentTempo : ℚ)
    (bd : BendData) : List BendEventInfo × ℤ :=
  let bendAmount : ℤ :=
    BendEvent.DEFAULT_BEND + (bd.bentPitch : ℤ) * BendEvent.BEND_QUARTER_TONE
  let releaseAmount : ℤ :=
    BendEvent.DEFAULT_BEND + (bd.releasePitch : ℤ) * BendEvent.BEND_QUARTER_TONE
  let bends : List BendEventInfo :=
    if bd.type = Note.preBend ∨ bd.type = Note.preBendAndRelease ∨
        bd.type = Note.preBendAndHold then
      [⟨startTime, bendAmount⟩]
    else []
  let bends : List BendEventInfo :=
    if bd.type = Note.normalBend ∨ bd.type = Note.bendAndHold then
      if bd.bendDuration = 0 then
        bends ++ generateGradualBend startTime (currentTempo / 8)
          BendEvent.DEFAULT_BEND bendAmount
      else if bd.bendDuration = 1 then
        bends ++ generateGradualBend startTime duration
          BendEvent.DEFAULT_BEND bendAmount
      else bends
    else bends
  let bends : List BendEventInfo :=
    if bd.type = Note.bendAndRelease then
      bends ++ generateGradualBend startTime (duration / 2)
        BendEvent.DEFAULT_BEND bendAmount
    else bends
  let bends : List BendEventInfo :=
    if bd.type = Note.preBendAndRelease then
      bends ++ generateGradualBend startTime duration bendAmount releaseAmount
    else if bd.type = Note.bendAndRelease then
      bends ++ generateGradualBend (startTime + duration / 2) (duration / 2)
        bendAmount releaseAmount
    else if bd.type = Note.gradualRelease then
      bends ++ generateGradualBend startTime duration activePitchBend
        releaseAmount
    else bends
  let bends : List BendEventInfo :=
    if bd.type = Note.preBend ∨ bd.type = Note.immediateRelease ∨
        bd.type = Note.normalBend then
      bends ++ [⟨startTime + duration, releaseAmount⟩]
    else bends
  (bends,
   if bd.type = Note.bendAndHold ∨ bd.type = Note.preBendAndHold then
     bendAmount
   else releaseAmount)

/-- The embedding of `MidiPlayer::generateSlides`: the slide-out-of samples (over the last
half of the note, with a reset to center at note end) followed by the
slide-into samples (over a 16th-note window at note start).
`SLIDE_OUT_OF_STEPS = 5`, so the wide bounds are `DEFAULT_BEND ± 10` on the
modelled scale. -/
def generateSlides (startTime noteDuration currentTempo : ℚ)
    (slideOutOf : Option (ℕ × ℤ)) (slideInto : Option ℕ) :
    List BendEventInfo :=
  (match slideOutOf with
   | some st =>
       generateGradualBend (startTime + noteDuration / 2) (noteDuration / 2)
         BendEvent.DEFAULT_BEND
         (if st.1 = Note.slideOutOfLegatoSlide ∨
             st.1 = Note.slideOutOfShiftSlide then
            BendEvent.DEFAULT_BEND + st.2 * 2 * BendEvent.BEND_QUARTER_TONE
          else if st.1 = Note.slideOutOfDownwards then
            BendEvent.DEFAULT_BEND - 5 * 2 * BendEvent.BEND_QUARTER_TONE
          else if st.1 = Note.slideOutOfUpwards then
            BendEvent.DEFAULT_BEND + 5 * 2 * BendEvent.BEND_QUARTER_TONE
          else BendEvent.DEFAULT_BEND) ++
       [⟨startTime + noteDuration, BendEvent.DEFAULT_BEND⟩]
   | none => []) ++
  (match slideInto with
   | some ty =>
       generateGradualBend startTime (currentTempo / 4)
         (if ty = Note.slideIntoFromBelow then
            BendEvent.DEFAULT_BEND - 5 * 2 * BendEvent.BEND_QUARTER_TONE
          else if ty = Note.slideIntoFromAbove then
            BendEvent.DEFAULT_BEND + 5 * 2 * BendEvent.BEND_QUARTER_TONE
          else BendEvent.DEFAULT_BEND)
         BendEvent.DEFAULT_BEND
   | none => [])

instance : Inhabited BendEventInfo := ⟨⟨0, 0⟩⟩

/-- A note, with the fields read by the player: string and fret, tie and
mute flags, harmonic data, bend data, slide data and trill data.
`tappedHarmonic` holds the tapped fret, `artificialHarmonic` the (key,
octaveDiff) pair (the key variation is unused by the player), `slideOutOf`
the (type, steps) pair and `trill` the trilled fret. -/
structure Note where
  string : ℕ
  fret : ℕ
  isTied : Bool
  isMuted : Bool
  isGhostNote : Bool
  isNaturalHarmonic : Bool
  tappedHarmonic : Option ℕ
  artificialHarmonic : Option (ℕ × ℕ)
  bend : Option BendData
  slideOutOf : Option (ℕ × ℤ)
  slideInto : Option ℕ
  trill : Option ℕ
  hasTieWrap : Bool
  deriving DecidableEq, Repr

/-- Modelled from the spec: `Note::HasSlide`. -/
def Note.hasSlide (n : Note) : Bool :=
  n.slideOutOf.isSome || n.slideInto.isSome

/-- A position: its anchor index within the staff, its duration type
(divisor of a whole note), its boolean properties and its ordered notes. -/
structure Position where
  position : ℕ
  durationType : ℕ
  isRest : Bool
  isAcciaccatura : Bool
  hasVibrato : Bool
  hasWideVibrato : Bool
  hasArpeggioUp : Bool
  hasArpeggioDown : Bool
  hasLetRing : Bool
  hasTremoloPicking : Bool
  isStaccato : Bool
  hasPalmMuting : Bool
  notes : List Note
  deriving DecidableEq, Repr

/-- Modelled from the spec: `Position::GetDuration` — the duration of the
position in quarter notes, i.e. `4 / durationType`, so that
`resolveDuration = 1/durationType * tempoMs * 4` ("a quarter note's duration
is tempoMs"); the old `position.h` is not among the sources. -/
def Position.getDuration (p : Position) : ℚ := 4 / (p.durationType : ℚ)

/-- The embedding of `MidiPlayer::calculateNoteDuration`. -/
def calculateNoteDuration (tempoMarkers : List TempoMarker)
    (currentSystemIndex : ℕ) (position : Position) : ℚ :=
  position.getDuration *
    getCurrentTempo tempoMarkers currentSystemIndex position.position

/-- A guitar: its tuning (open-string MIDI pitch per string index) and its
capo. -/
structure Guitar where
  tuning : List ℕ
  capo : ℕ
  deriving DecidableEq, Repr

/-- The embedding of `MidiPlayer::initHarmonicPitches` / `harmonicPitches`: fret offset →
half-step offset; `std::map::operator[]` yields the default 0 for offsets
outside the table. -/
def harmonicPitches (fretOffset : ℕ) : ℕ :=
  if fretOffset = 3 then 31
  else if fretOffset = 4 ∨ fretOffset = 9 ∨ fretOffset = 16 ∨
      fretOffset = 28 then 28
  else if fretOffset = 5 ∨ fretOffset = 24 then 24
  else if fretOffset = 7 ∨ fretOffset = 19 then 19
  else if fretOffset = 12 then 12
  else 0

/-- The embedding of `MidiPlayer::getHarmonicPitch`. -/
def getHarmonicPitch (basePitch : ℤ) (fretOffset : ℕ) : ℤ :=
  basePitch + harmonicPitches fretOffset

/-- Modelled from the spec: `midi::GetMidiNoteOctave` (`generalmidi.h` is
not among the sources) — the standard MIDI octave `pitch / 12 - 1`. -/
def GetMidiNoteOctave (pitch : ℤ) : ℤ := pitch / 12 - 1

/-- The embedding of `MidiPlayer::getActualNotePitch`: open-string pitch + capo + fret,
overridden by the natural-harmonic table, then re-keyed by a tapped
harmonic, with an artificial harmonic recomputing the pitch last. -/
def getActualNotePitch (note : Note) (guitar : Guitar) : ℤ :=
  let openStringPitch : ℤ :=
    (guitar.tuning.getD note.string 0 : ℤ) + (guitar.capo : ℤ)
  let pitch0 : ℤ := openStringPitch + (note.fret : ℤ)
  let pitch1 : ℤ :=
    if note.isNaturalHarmonic then getHarmonicPitch openStringPitch note.fret
    else pitch0
  let pitch2 : ℤ :=
    match note.tappedHarmonic with
    | some tappedFret => getHarmonicPitch pitch1 (tappedFret - note.fret)
    | none => pitch1
  match note.artificialHarmonic with
  | some ah => (GetMidiNoteOctave pitch2 + (ah.2 : ℤ) + 2) * 12 + (ah.1 : ℤ)
  | none => pitch2

/-- The velocity classes of `PlayNoteEvent`. -/
inductive VelocityType
  | ghostVelocity
  | mutedVelocity
  | palmMutedVelocity
  | defaultVelocity
  deriving DecidableEq, Repr

/-- The embedding of `getNoteVelocity` (midiplayer.cpp): ghost > muted > palm-muted >
default. -/
def getNoteVelocity (position : Position) (note : Note) : VelocityType :=
  if note.isGhostNote then .ghostVelocity
  else if note.isMuted then .mutedVelocity
  else if position.hasPalmMuting then .palmMutedVelocity
  else .defaultVelocity

/-- The event variants produced by the generator for a staff voice (the
concrete `MidiEvent` subclasses used there), each with its staff/channel
index, start time and location. -/
inductive MidiEvt
  | playNote (staff : ℕ) (startTime duration : ℚ) (pitch : ℤ)
      (position system : ℕ) (muted : Bool) (velocity : VelocityType)
  | stopNote (staff : ℕ) (startTime : ℚ) (position system : ℕ) (pitch : ℤ)
  | vibratoEvent (staff : ℕ) (startTime : ℚ) (position system : ℕ)
      (isOn : Bool) (wide : Bool)
  | letRingEvent (staff : ℕ) (startTime : ℚ) (position system : ℕ)
      (isOn : Bool)
  | bendEvent (staff : ℕ) (startTime : ℚ) (position system : ℕ) (amount : ℤ)
  deriving DecidableEq, Repr

def MidiEvt.isPlayNote : MidiEvt → Bool
  | .playNote .. => true
  | _ => false

def MidiEvt.isLetRingOn : MidiEvt → Bool
  | .letRingEvent _ _ _ _ true => true
  | _ => false

def MidiEvt.isLetRingOff : MidiEvt → Bool
  | .letRingEvent _ _ _ _ false => true
  | _ => false

def MidiEvt.stopNotePitch : MidiEvt → Option ℤ
  | .stopNote _ _ _ _ pitch => some pitch
  | _ => none

/-- Modelled from the spec: `ARPEGGIO_OFFSET` ("a small fixed stagger";
`midiplayer.h` is not among the sources), in milliseconds. -/
def ARPEGGIO_OFFSET : ℚ := 30

/-- Modelled from the spec: `GRACE_NOTE_DURATION` ("duration fixed at a
short constant"; `midiplayer.h` is not among the sources), in
milliseconds. -/
def GRACE_NOTE_DURATION : ℚ := 60

/-- Insertion of a note into a string-ascending list (helper for the
modelled note sorting). -/
def insertNoteByString (n : Note) : List Note → List Note
  | [] => [n]
  | m :: rest =>
      if n.string ≤ m.string then n :: m :: rest
      else m :: insertNoteByString n rest

/-- Modelled from the spec: `Position::SortNotesUp` — "sort the notes by
string in the specified direction"; ascending string index. -/
def sortNotesByStringAsc : List Note → List Note
  | [] => []
  | n :: rest => insertNoteByString n (sortNotesByStringAsc rest)

/-- Insertion of a note into a string-descending list. -/
def insertNoteByStringDesc (n : Note) : List Note → List Note
  | [] => [n]
  | m :: rest =>
      if m.string ≤ n.string then n :: m :: rest
      else m :: insertNoteByStringDesc n rest

/-- Modelled from the spec: `Position::SortNotesDown` — descending string
index. -/
def sortNotesByStringDesc : List Note → List Note
  | [] => []
  | n :: rest => insertNoteByStringDesc n (sortNotesByStringDesc rest)

def Position.sortNotesUp (p : Position) : Position :=
  { p with notes := sortNotesByStringAsc p.notes }

def Position.sortNotesDown (p : Position) : Position :=
  { p with notes := sortNotesByStringDesc p.notes }

/-- The note reordering applied to an arpeggio position before emission
(the if/else chain of `generateEventsForSystem`): an arpeggio-down sorts the
notes down, otherwise an arpeggio-up sorts them up. -/
def Position.arpeggioSorted (p : Position) : Position :=
  if p.hasArpeggioDown then p.sortNotesDown
  else if p.hasArpeggioUp then p.sortNotesUp
  else p

/-- Modelled from the spec: `Staff::GetAdjacentNoteOnString` — "look up the
adjacent note on the same string in voice order": the note on the same
string within the adjacent position of the voice, when both exist. -/
def findByString (adjacent : Option Position) (string : ℕ) : Option Note :=
  match adjacent with
  | some p => p.notes.find? (fun m => m.string == string)
  | none => none

/-- A time signature: beats per measure, beat amount (note-type divisor
getting the beat) and metronome pulse count. -/
structure TimeSignature where
  beatsPerMeasure : ℕ
  beatAmount : ℕ
  pulses : ℕ
  deriving DecidableEq, Repr

/-- A barline: its position within the system and its time signature. -/
structure Barline where
  position : ℕ
  timeSignature : TimeSignature
  deriving DecidableEq, Repr

/-- Modelled from the spec: `System::GetPrecedingBarline` — the nearest
barline at or before the given position ("the nearest preceding barline's
time signature").  Well-formed systems have their start barline at position
0, so the fallback is unreachable. -/
def precedingBarline (barlines : List Barline) (pos : ℕ) : Barline :=
  ((barlines.filter (fun b => b.position ≤ pos)).getLast?).getD ⟨0, ⟨4, 4, 4⟩⟩

/-- Modelled from the spec: `Staff::IsOnlyPositionInBar` — whether the
position is "the only item in its measure": every other position of the
voice lies under a different preceding barline. -/
def isOnlyPositionInBar (voicePositions : List Position)
    (barlines : List Barline) (p : Position) : Bool :=
  voicePositions.all (fun q =>
    q.position == p.position ||
      !((precedingBarline barlines q.position).position ==
        (precedingBarline barlines p.position).position))

/-- The embedding of `MidiPlayer::getWholeRestDuration`: if the whole rest is not the only
position in its bar it keeps the original duration, otherwise it lasts the
full measure, `tempo * 4 / beatAmount * beatsPerMeasure`, with the time
signature read from the preceding barline. -/
def getWholeRestDuration (barlines : List Barline)
    (voicePositions : List Position) (tempoMarkers : List TempoMarker)
    (currentSystemIndex : ℕ) (position : Position)
    (originalDuration : ℚ) : ℚ :=
  if ¬ (isOnlyPositionInBar voicePositions barlines position = true) then
    originalDuration
  else
    getCurrentTempo tempoMarkers currentSystemIndex position.position * 4 /
      ((precedingBarline barlines
          position.position).timeSignature.beatAmount : ℚ) *
      ((precedingBarline barlines
          position.position).timeSignature.beatsPerMeasure : ℚ)

/-- The per-voice generation context: the staff/channel index `i`, the
system index, the staff's guitar, the score's tempo markers, the system's
barlines and the positions of the staff voice being generated. -/
structure VoiceContext where
  staffIndex : ℕ
  systemIndex : ℕ
  guitar : Guitar
  tempoMarkers : List TempoMarker
  barlines : List Barline
  voicePositions : List Position
  deriving Repr

/-- The mutable state of the note loop (`for k` over the position's notes):
the (arpeggio-shifted) start time and duration, the per-voice active pitch
bend and the accumulated event list. -/
structure NoteLoopState where
  startTime : ℚ
  duration : ℚ
  activePitchBend : ℤ
  events : List MidiEvt
  deriving Repr

/-- One subdivision of the tremolo-picking / trill loop: a StopNote of the
current pitch, the `std::swap(pitch, otherPitch)`, then a PlayNote of the
post-swap pitch.  The state is (pitch, otherPitch, events). -/
def tremoloStep (staffIndex positionIndex systemIndex : ℕ) (muted : Bool)
    (velocity : VelocityType) (startTime tremPickNoteDuration : ℚ)
    (st : ℤ × ℤ × List MidiEvt) (k : ℕ) : ℤ × ℤ × List MidiEvt :=
  (st.2.1, st.1,
   (st.2.2 ++
      [MidiEvt.stopNote staffIndex (startTime + (k : ℚ) * tremPickNoteDuration)
        positionIndex systemIndex st.1]) ++
     [MidiEvt.playNote staffIndex (startTime + (k : ℚ) * tremPickNoteDuration)
       tremPickNoteDuration st.2.1 positionIndex systemIndex muted velocity])

/-- Whether the note is tied *to* by the adjacent note on the same string in
the next position of the voice (the `tiedToNextNote` check of the note
loop). -/
def tiedToNext (nextPosition : Option Position) (note : Note) : Bool :=
  match findByString nextPosition note.string with
  | some nextNote => nextNote.isTied
  | none => false

/-- The pitch carried by a tied note: the resolved pitch of the adjacent
previous note on the same string when one exists, the note's own resolved
pitch otherwise. -/
def tiedPitch (guitar : Guitar) (prevPosition : Option Position)
    (note : Note) : ℤ :=
  match findByString prevPosition note.string with
  | some prevNote => getActualNotePitch prevNote guitar
  | none => getActualNotePitch note guitar

/-- The body of the note loop of `MidiPlayer::generateEventsForSystem`
(`for k` over the position's notes), processing one note. -/
def processNote (ctx : VoiceContext) (position : Position)
    (prevPosition nextPosition : Option Position) (currentTempo : ℚ)
    (st : NoteLoopState) (note : Note) : NoteLoopState :=
  let startTime :=
    if position.hasArpeggioDown || position.hasArpeggioUp then
      st.startTime + ARPEGGIO_OFFSET
    else st.startTime
  let duration :=
    if position.hasArpeggioDown || position.hasArpeggioUp then
      st.duration - ARPEGGIO_OFFSET
    else st.duration
  let velocity := getNoteVelocity position note
  let pitch : ℤ :=
    if note.isTied then tiedPitch ctx.guitar prevPosition note
    else getActualNotePitch note ctx.guitar
  let events :=
    if note.isTied then st.events
    else
      st.events ++
        [MidiEvt.playNote ctx.staffIndex startTime duration pitch
          position.position ctx.systemIndex note.isMuted velocity]
  let slideList :=
    if note.hasSlide then
      generateSlides startTime duration currentTempo note.slideOutOf
        note.slideInto
    else []
  let bendPair :=
    match note.bend with
    | some bd => generateBends st.activePitchBend startTime duration
        currentTempo bd
    | none => ([], st.activePitchBend)
  let events := events ++
    (slideList ++ bendPair.1).map (fun e =>
      MidiEvt.bendEvent ctx.staffIndex e.timestamp position.position
        ctx.systemIndex e.pitchBendAmount)
  let trem : ℤ × ℤ × List MidiEvt :=
    if position.hasTremoloPicking || note.trill.isSome then
      (List.range (Int.floor (duration / (currentTempo / 8))).toNat).foldl
        (tremoloStep ctx.staffIndex position.position ctx.systemIndex
          note.isMuted velocity startTime (currentTempo / 8))
        (pitch,
         (match note.trill with
          | some trilledFret => pitch + ((note.fret : ℤ) - (trilledFret : ℤ))
          | none => pitch),
         events)
    else
      (pitch,
       (match note.trill with
        | some trilledFret => pitch + ((note.fret : ℤ) - (trilledFret : ℤ))
        | none => pitch),
       events)
  let tiedToNextNote := tiedToNext nextPosition note
  let events :=
    if !note.hasTieWrap && !tiedToNextNote then
      trem.2.2 ++
        [MidiEvt.stopNote ctx.staffIndex
          (startTime +
            (if position.isStaccato then duration / 2
             else if position.hasPalmMuting then duration / (23 / 20)
             else duration))
          position.position ctx.systemIndex trem.1]
    else trem.2.2
  { startTime := startTime, duration := duration,
    activePitchBend := bendPair.2, events := events }

/-- The walker state of a voice across its positions: the running start
time, the voice's end time, the let-ring flag, the carried active pitch
bend and the accumulated events. -/
structure VoiceGenState where
  startTime : ℚ
  endTime : ℚ
  letRingActive : Bool
  activePitchBend : ℤ
  events : List MidiEvt
  deriving Repr

/-- The body of the position loop of `MidiPlayer::generateEventsForSystem`
(`for j` over a voice's positions): rests advance the cursor (with the
whole-rest special case) and emit nothing; grace notes are rendered before
their anchor; arpeggio positions get their notes sorted by string; vibrato
and let-ring events are emitted at position level, then the note loop runs.
`isLast` is `j == positionCount - 1`. -/
def processPosition (ctx : VoiceContext) (prevPosition : Option Position)
    (position : Position) (nextPosition : Option Position) (isLast : Bool)
    (st : VoiceGenState) : VoiceGenState :=
  let currentTempo :=
    getCurrentTempo ctx.tempoMarkers ctx.systemIndex position.position
  let duration := calculateNoteDuration ctx.tempoMarkers ctx.systemIndex
    position
  if position.isRest then
    let duration :=
      if position.durationType = 1 then
        getWholeRestDuration ctx.barlines ctx.voicePositions ctx.tempoMarkers
          ctx.systemIndex position duration
      else duration
    { st with
        startTime := st.startTime + duration,
        endTime := max st.endTime (st.startTime + duration) }
  else
    let duration :=
      if position.isAcciaccatura then GRACE_NOTE_DURATION else duration
    let startTime :=
      if position.isAcciaccatura then st.startTime - GRACE_NOTE_DURATION
      else st.startTime
    let sorted :=
      if position.hasArpeggioDown then position.sortNotesDown
      else if position.hasArpeggioUp then position.sortNotesUp
      else position
    let events := st.events
    let events :=
      if position.hasVibrato || position.hasWideVibrato then
        events ++
          [MidiEvt.vibratoEvent ctx.staffIndex startTime position.position
            ctx.systemIndex true (!position.hasVibrato),
           MidiEvt.vibratoEvent ctx.staffIndex (startTime + duration)
            position.position ctx.systemIndex false false]
      else events
    let letRing : List MidiEvt × Bool :=
      if position.hasLetRing && !st.letRingActive then
        ([MidiEvt.letRingEvent ctx.staffIndex startTime position.position
            ctx.systemIndex true], true)
      else if !position.hasLetRing && st.letRingActive then
        ([MidiEvt.letRingEvent ctx.staffIndex startTime position.position
            ctx.systemIndex false], false)
      else if st.letRingActive && isLast then
        ([MidiEvt.letRingEvent ctx.staffIndex (startTime + duration)
            position.position ctx.systemIndex false], false)
      else ([], st.letRingActive)
    let events := events ++ letRing.1
    let nls := sorted.notes.foldl
      (processNote ctx sorted prevPosition nextPosition currentTempo)
      ⟨startTime, duration, st.activePitchBend, events⟩
    { startTime := nls.startTime + nls.duration,
      endTime := max st.endTime (nls.startTime + nls.duration),
      letRingActive := letRing.2,
      activePitchBend := nls.activePitchBend,
      events := nls.events }

/-- The position loop over one voice, threading the walker state.  `prev`
is the previously processed position (the voice-order adjacent position
used for tie lookups); the next position is the head of the remaining
list. -/
def walkVoiceAux (ctx : VoiceContext) :
    Option Position → List Position → VoiceGenState → VoiceGenState
  | _, [], st => st
  | prev, p :: rest, st =>
      walkVoiceAux ctx (some p) rest
        (processPosition ctx prev p rest.head? rest.isEmpty st)

/-- The embedding of `MidiPlayer::generateEventsForSystem`, restricted to one staff voice
(the two outer loops fix the staff `i` and the `voice`): the per-voice walk
starts at the system's start time with `letRingActive = false` and
`activePitchBend = DEFAULT_BEND`. -/
def generateEventsForVoice (ctx : VoiceContext) (systemStartTime : ℚ) :
    VoiceGenState :=
  walkVoiceAux ctx none ctx.voicePositions
    ⟨systemStartTime, systemStartTime, false, BendEvent.DEFAULT_BEND, []⟩

/-- A plain note on string 0. -/
def plainOpenNote : Note :=
  { string := 0, fret := 0, isTied := false, isMuted := false,
    isGhostNote := false, isNaturalHarmonic := false, tappedHarmonic := none,
    artificialHarmonic := none, bend := none, slideOutOf := none,
    slideInto := none, trill := none, hasTieWrap := false }

/-- A single quarter-note position with let-ring set, holding one plain
note. -/
def letRingPosition : Position :=
  { position := 0, durationType := 4, isRest := false,
    isAcciaccatura := false, hasVibrato := false, hasWideVibrato := false,
    hasArpeggioUp := false, hasArpeggioDown := false, hasLetRing := true,
    hasTremoloPicking := false, isStaccato := false, hasPalmMuting := false,
    notes := [plainOpenNote] }

/-- A voice consisting solely of `letRingPosition`. -/
def letRingContext : VoiceContext :=
  { staffIndex := 0, systemIndex := 0, guitar := ⟨[64], 0⟩,
    tempoMarkers := [], barlines := [⟨0, ⟨4, 4, 4⟩⟩],
    voicePositions := [letRingPosition] }

/-- A lone whole rest at position 1 of a 4/4 measure. -/
def wholeRestPosition : Position :=
  { position := 1, durationType := 1, isRest := true,
    isAcciaccatura := false, hasVibrato := false, hasWideVibrato := false,
    hasArpeggioUp := false, hasArpeggioDown := false, hasLetRing := false,
    hasTremoloPicking := false, isStaccato := false, hasPalmMuting := false,
    notes := [] }

/-- A voice holding only the lone whole rest, 4/4, no tempo markers (so the
120 BPM default applies). -/
def wholeRestContext : VoiceContext :=
  { staffIndex := 0, systemIndex := 0, guitar := ⟨[64], 0⟩,
    tempoMarkers := [], barlines := [⟨0, ⟨4, 4, 4⟩⟩],
    voicePositions := [wholeRestPosition] }

/-- A note with none of the features that change the per-note event shape:
untied (and no tie wrap), no trill, no bend, no slides, not ghost, not
muted. -/
def plainNote (n : Note) : Prop :=
  n.isTied = false ∧ n.hasTieWrap = false ∧ n.trill = none ∧
  n.bend = none ∧ n.slideOutOf = none ∧ n.slideInto = none ∧
  n.isGhostNote = false ∧ n.isMuted = false

instance (n : Note) : Decidable (plainNote n) := by
  unfold plainNote
  infer_instance

/-- The arpeggio rendering as the code produces it: every note of the
(string-sorted) position, *including the first*, starts one stagger after
the previous note's start — the first note one stagger after the position's
start — and the shared duration shrinks by one stagger per note; each note
is stopped at its own start + duration. -/
def arpeggioRender (staffIndex : ℕ) (guitar : Guitar)
    (positionIndex systemIndex : ℕ) : ℚ → ℚ → List Note → List MidiEvt
  | _, _, [] => []
  | s, d, n :: rest =>
      MidiEvt.playNote staffIndex (s + ARPEGGIO_OFFSET) (d - ARPEGGIO_OFFSET)
        (getActualNotePitch n guitar) positionIndex systemIndex false
        VelocityType.defaultVelocity ::
      MidiEvt.stopNote staffIndex
        ((s + ARPEGGIO_OFFSET) + (d - ARPEGGIO_OFFSET)) positionIndex
        systemIndex (getActualNotePitch n guitar) ::
      arpeggioRender staffIndex guitar positionIndex systemIndex
        (s + ARPEGGIO_OFFSET) (d - ARPEGGIO_OFFSET) rest

/-- Two plain notes, strings 1 and 0 (deliberately unsorted), on an
arpeggio-up quarter-note position. -/
def arpeggioPosition : Position :=
  { position := 0, durationType := 4, isRest := false,
    isAcciaccatura := false, hasVibrato := false, hasWideVibrato := false,
    hasArpeggioUp := true, hasArpeggioDown := false, hasLetRing := false,
    hasTremoloPicking := false, isStaccato := false, hasPalmMuting := false,
    notes := [{ plainOpenNote with string := 1 }, plainOpenNote] }

/-- A voice holding only `arpeggioPosition`. -/
def arpeggioContext : VoiceContext :=
  { staffIndex := 0, systemIndex := 0, guitar := ⟨[60, 55], 0⟩,
    tempoMarkers := [], barlines := [⟨0, ⟨4, 4, 4⟩⟩],
    voicePositions := [arpeggioPosition] }

/-- A tied, otherwise plain, note on string 0. -/
def tiedNote : Note := { plainOpenNote with isTied := true }

/-- A tremolo-picking quarter-note position holding only `tiedNote`. -/
def tremoloPosition : Position :=
  { position := 0, durationType := 4, isRest := false,
    isAcciaccatura := false, hasVibrato := false, hasWideVibrato := false,
    hasArpeggioUp := false, hasArpeggioDown := false, hasLetRing := false,
    hasTremoloPicking := true, isStaccato := false, hasPalmMuting := false,
    notes := [tiedNote] }

/-- A voice holding only `tremoloPosition`. -/
def tremoloContext : VoiceContext :=
  { staffIndex := 0, systemIndex := 0, guitar := ⟨[60], 0⟩,
    tempoMarkers := [], barlines := [⟨0, ⟨4, 4, 4⟩⟩],
    voicePositions := [tremoloPosition] }

/-- A plain position holding a fretted note on string 0 (the tie
predecessor). -/
def tiedPrevPosition : Position :=
  { position := 0, durationType := 4, isRest := false,
    isAcciaccatura := false, hasVibrato := false, hasWideVibrato := false,
    hasArpeggioUp := false, hasArpeggioDown := false, hasLetRing := false,
    hasTremoloPicking := false, isStaccato := false, hasPalmMuting := false,
    notes := [{ plainOpenNote with fret := 5 }] }

/-- The position holding the tied note, following `tiedPrevPosition`. -/
def tiedPosition : Position :=
  { position := 1, durationType := 4, isRest := false,
    isAcciaccatura := false, hasVibrato := false, hasWideVibrato := false,
    hasArpeggioUp := false, hasArpeggioDown := false, hasLetRing := false,
    hasTremoloPicking := false, isStaccato := false, hasPalmMuting := false,
    notes := [tiedNote] }

/-- The voice holding the two tied positions. -/
def tiedContext : VoiceContext :=
  { staffIndex := 0, systemIndex := 0, guitar := ⟨[60], 0⟩,
    tempoMarkers := [], barlines := [⟨0, ⟨4, 4, 4⟩⟩],
    voicePositions := [tiedPrevPosition, tiedPosition] }

/-! ## Theorems -/

theorem performMusicalDirection_directions (st : RepeatController) (t : ℕ) :
    ((st.performMusicalDirection t).1).directions = st.directions := by
  unfold RepeatController.performMusicalDirection
  repeat' split <;> try rfl

theorem directionCheck_none (st : RepeatController) (loc : SystemLocation)
    (gidx : ℕ)
    (h : (st.directionCheck loc gidx).2.2 = none) :
    (st.directionCheck loc gidx).1.directions = st.directions := by
  unfold RepeatController.directionCheck at h ⊢
  cases hD : st.directions.dropWhile (fun e => SystemLocation.ltb e.1 loc) with
  | nil => simp only [hD]
  | cons entry rest =>
      simp only [hD] at h ⊢
      split
      next hS =>
        rw [if_pos hS] at h
        split
        next hNe =>
          rw [if_pos hNe] at h
          exact absurd h (by simp)
        next hNe =>
          exact performMusicalDirection_directions st entry.2.symbolType
      next hS => rfl

theorem directionCheck_some (st : RepeatController) (loc : SystemLocation)
    (gidx : ℕ) (e : SystemLocation × DirectionSymbol)
    (h : (st.directionCheck loc gidx).2.2 = some e) :
    st.directions =
      st.directions.takeWhile (fun x => SystemLocation.ltb x.1 loc) ++ e ::
        (st.directions.dropWhile (fun x => SystemLocation.ltb x.1 loc)).tail ∧
    (st.directionCheck loc gidx).1.directions =
      st.directions.takeWhile (fun x => SystemLocation.ltb x.1 loc) ++
        (st.directions.dropWhile (fun x => SystemLocation.ltb x.1 loc)).tail
    := by
  unfold RepeatController.directionCheck at h ⊢
  cases hD : st.directions.dropWhile (fun x => SystemLocation.ltb x.1 loc) with
  | nil => simp only [hD] at h; exact absurd h (by simp)
  | cons entry rest =>
      simp only [hD] at h ⊢
      by_cases hS : entry.2.shouldPerformDirection st.activeSymbol
          ((st.repeats.getD gidx dummyRepeatEntry).2).getActiveRepeat = true
      · rw [if_pos hS] at h ⊢
        by_cases hNe : (st.performMusicalDirection entry.2.symbolType).2 ≠ loc
        · rw [if_pos hNe] at h ⊢
          have hE : entry = e := by simpa using h
          subst hE
          refine ⟨?_, rfl⟩
          conv_lhs => rw [← List.takeWhile_append_dropWhile
            (p := fun x => SystemLocation.ltb x.1 loc) (l := st.directions), hD]
          rfl
        · rw [if_neg hNe] at h
          exact absurd h (by simp)
      · rw [if_neg hS] at h
        exact absurd h (by simp)

theorem checkForRepeatCore_performed (st : RepeatController)
    (loc : SystemLocation) :
    (st.checkForRepeatCore loc).2.2 =
      (st.directionCheck loc (getPreviousRepeatGroupIdx st.repeats loc)).2.2 ∧
    (st.checkForRepeatCore loc).1.directions =
      (st.directionCheck loc
        (getPreviousRepeatGroupIdx st.repeats loc)).1.directions := by
  unfold RepeatController.checkForRepeatCore
  split <;> exact ⟨rfl, rfl⟩

theorem countEntry_nil (e : SystemLocation × DirectionSymbol) :
    countEntry e [] = 0 := rfl

theorem checkForRepeatCore_count (st : RepeatController) (loc : SystemLocation)
    (e : SystemLocation × DirectionSymbol) :
    countEntry e ((st.checkForRepeatCore loc).1.directions) +
      (match (st.checkForRepeatCore loc).2.2 with
       | some f => if f = e then 1 else 0
       | none => 0) = countEntry e st.directions := by
  obtain ⟨hP, hDir⟩ := checkForRepeatCore_performed st loc
  rw [hP, hDir]
  cases hC : (st.directionCheck loc
      (getPreviousRepeatGroupIdx st.repeats loc)).2.2 with
  | none => rw [directionCheck_none _ _ _ hC]; simp
  | some f =>
      obtain ⟨h1, h2⟩ := directionCheck_some _ _ _ _ hC
      rw [h2]
      conv_rhs => rw [h1]
      simp only [countEntry, List.countP_append, List.countP_cons]
      by_cases hE : f = e
      · subst hE
        simp
        omega
      · simp [hE]

theorem runQueries_count_le (st : RepeatController) (qs : List SystemLocation)
    (e : SystemLocation × DirectionSymbol) :
    countEntry e (runQueries st qs) ≤ countEntry e st.directions := by
  induction qs generalizing st with
  | nil => simp [runQueries, countEntry]
  | cons loc qs ih =>
      unfold runQueries
      cases hE : st.repeats.isEmpty with
      | true =>
          rw [if_pos rfl]
          exact ih st
      | false =>
          rw [if_neg Bool.false_ne_true]
          have hc := checkForRepeatCore_count st loc e
          cases hP : (st.checkForRepeatCore loc).2.2 with
          | none =>
              simp only [hP] at hc ⊢
              have hI := ih (st.checkForRepeatCore loc).1
              omega
          | some f =>
              simp only [hP] at hc ⊢
              have hI := ih (st.checkForRepeatCore loc).1
              simp only [countEntry, List.countP_cons] at hc hI ⊢
              by_cases hE2 : f = e
              · subst hE2
                simp at hc ⊢
                omega
              · simp [hE2] at hc ⊢
                omega

/-- Claim C2: Once a direction entry is performed by `checkForRepeat` it is
erased from the direction index (its multiplicity drops by exactly one), and
consequently, over any playback run (any sequence of `checkForRepeat`
queries, with the controller state threaded from call to call), a direction
entry is performed at most as many times as it initially occurs in the index
— in particular a direction indexed once is never performed a second time,
even if playback revisits its location on a later pass. -/
theorem checkForRepeat_direction_consumed_once :
    (∀ (st : RepeatController) (loc : SystemLocation)
        (e : SystemLocation × DirectionSymbol),
        (st.checkForRepeatCore loc).2.2 = some e →
          countEntry e ((st.checkForRepeatCore loc).1.directions) + 1 =
            countEntry e st.directions) ∧
    (∀ (st : RepeatController) (qs : List SystemLocation)
        (e : SystemLocation × DirectionSymbol),
        countEntry e (runQueries st qs) ≤ countEntry e st.directions) := by
  constructor
  · intro st loc e h
    have hc := checkForRepeatCore_count st loc e
    rw [h] at hc
    simpa using hc
  · exact runQueries_count_le

theorem checkForRepeat_direction_consumed_once_witness :
    countEntry (⟨0, 2⟩, ⟨Direction.daCapo, Direction.activeNone, 0⟩)
        ((witnessController.checkForRepeatCore ⟨0, 2⟩).1.directions) + 1 =
      countEntry (⟨0, 2⟩, ⟨Direction.daCapo, Direction.activeNone, 0⟩)
        witnessController.directions :=
  checkForRepeat_direction_consumed_once.1 witnessController ⟨0, 2⟩ _
    (by decide)

/-- Claim C1: Evaluation of the code at the failing input: no direction is
indexed at the queried location (0, 3), yet `checkForRepeat` performs the
direction indexed at (0, 5) — it erases that entry and jumps to (0, 0) —
because the guard after `equal_range` compares against `end()` instead of
against the end of the equal range.  Per the claim (and the spec) the query
should have fallen through to the repeat check and, here, returned no
change. -/
theorem checkForRepeat_fires_direction_not_at_location :
    (offsiteController.directions.filter
        (fun e => decide (e.1 = (⟨0, 3⟩ : SystemLocation)))) = [] ∧
    (offsiteController.checkForRepeat 0 3 99 99).2 = (true, 0, 0) ∧
    (offsiteController.checkForRepeatCore ⟨0, 3⟩).2.2 =
      some (⟨0, 5⟩, ⟨Direction.daCapo, Direction.activeNone, 0⟩) ∧
    (offsiteController.checkForRepeatCore ⟨0, 3⟩).1.directions = [] := by
  decide

/-- Claim C10: `checkForRepeat` leaves the caller-supplied `newSystem`/`newPos`
output parameters unmodified whenever it returns `false` (no direction
performed and no repeat taken, including the empty-repeat-index case), and
writes them — with the components of a location different from the queried
one — exactly when it returns `true`. -/
theorem checkForRepeat_outputs_frame (st : RepeatController)
    (currentSystem currentPos newSystem newPos : ℕ) :
    ((st.checkForRepeat currentSystem currentPos newSystem newPos).2.1 = false →
      (st.checkForRepeat currentSystem currentPos newSystem newPos).2.2 =
        (newSystem, newPos)) ∧
    ((st.checkForRepeat currentSystem currentPos newSystem newPos).2.1 = true →
      (st.checkForRepeat currentSystem currentPos newSystem newPos).2.2 =
        ((st.checkForRepeatCore ⟨currentSystem, currentPos⟩).2.1.systemIndex,
         (st.checkForRepeatCore ⟨currentSystem, currentPos⟩).2.1.positionIndex) ∧
      (st.checkForRepeatCore ⟨currentSystem, currentPos⟩).2.1 ≠
        (⟨currentSystem, currentPos⟩ : SystemLocation)) := by
  unfold RepeatController.checkForRepeat
  by_cases hE : st.repeats.isEmpty
  · simp [hE]
  · simp only [hE, if_false]
    by_cases hL : (st.checkForRepeatCore ⟨currentSystem, currentPos⟩).2.1 =
        (⟨currentSystem, currentPos⟩ : SystemLocation)
    · simp [hL]
    · simp [hL]

theorem checkForRepeat_outputs_frame_witness :
    (idleController.checkForRepeat 0 2 7 9).2.2 = (7, 9) :=
  (checkForRepeat_outputs_frame idleController 0 2 7 9).1 (by decide)

theorem foldl_last_match {α : Type} (p : α → Bool) (l : List α)
    (acc : Option α) :
    l.foldl (fun a t => if p t then some t else a) acc =
      ((l.filter p).getLast?).or acc := by
  induction l using List.reverseRecOn generalizing acc with
  | nil => simp
  | append_singleton l x ih =>
      rw [List.foldl_append, List.foldl_cons, List.foldl_nil,
        List.filter_append]
      by_cases hp : p x = true
      · simp only [List.filter_cons, List.filter_nil, hp, if_pos]
        rw [List.getLast?_append_cons]
        simp
      · rw [if_neg hp]
        simp only [List.filter_cons, List.filter_nil, if_neg hp,
          List.append_nil]
        exact ih acc

/-- A marker whose location (0, 10) precedes the queried location (1, 5) in
`SystemLocation` order but whose position index exceeds the queried position
index: the code's componentwise test rejects it, the claim's lexicographic
test selects it. -/
theorem getCurrentTempoMarker_not_lexicographic :
    getCurrentTempoMarker [laterPositionMarker] 1 5 = none ∧
    specTempoMarker [laterPositionMarker] 1 5 = some laterPositionMarker ∧
    SystemLocation.leb ⟨laterPositionMarker.system, laterPositionMarker.position⟩
        ⟨1, 5⟩ = true ∧
    laterPositionMarker.isAlterationOfPace = false := by
  decide

/-- Claim C3, amended: Tempo resolution selects the *last marker in scan
order* whose system index is `≤` the queried system index and whose position
index is `≤` the queried position index — a componentwise comparison, not
the `SystemLocation` lexicographic order — skipping alteration-of-pace
markers; when no marker qualifies the 120 BPM / quarter-note default applies
(500 ms), and the returned quarter-note duration is
`60000 / bpm * (quarter / beatType)` milliseconds. -/
theorem getCurrentTempo_selection (tempoMarkers : List TempoMarker)
    (currentSystemIndex positionIndex : ℕ) :
    getCurrentTempoMarker tempoMarkers currentSystemIndex positionIndex =
      (tempoMarkers.filter (fun t =>
        t.system ≤ currentSystemIndex && t.position ≤ positionIndex &&
          !t.isAlterationOfPace)).getLast? ∧
    getCurrentTempo tempoMarkers currentSystemIndex positionIndex =
      (match (tempoMarkers.filter (fun t =>
          t.system ≤ currentSystemIndex && t.position ≤ positionIndex &&
            !t.isAlterationOfPace)).getLast? with
       | some m => 60000 / m.beatsPerMinute * (TempoMarker.quarter / m.beatType)
       | none => 500) := by
  have hsel : getCurrentTempoMarker tempoMarkers currentSystemIndex
      positionIndex =
      (tempoMarkers.filter (fun t =>
        t.system ≤ currentSystemIndex && t.position ≤ positionIndex &&
          !t.isAlterationOfPace)).getLast? := by
    unfold getCurrentTempoMarker
    rw [foldl_last_match
      (fun t => decide (t.system ≤ currentSystemIndex) &&
        decide (t.position ≤ positionIndex) && !t.isAlterationOfPace)
      tempoMarkers none]
    exact Option.or_none
  refine ⟨hsel, ?_⟩
  rw [getCurrentTempo, hsel]
  cases (tempoMarkers.filter (fun t =>
      t.system ≤ currentSystemIndex && t.position ≤ positionIndex &&
        !t.isAlterationOfPace)).getLast? with
  | none =>
      show 60 / TempoMarker.DEFAULT_BEATS_PER_MINUTE * 1000 *
        (TempoMarker.quarter / TempoMarker.DEFAULT_BEAT_TYPE) = 500
      norm_num [TempoMarker.DEFAULT_BEATS_PER_MINUTE,
        TempoMarker.DEFAULT_BEAT_TYPE, TempoMarker.quarter]
  | some m =>
      show 60 / m.beatsPerMinute * 1000 *
          (TempoMarker.quarter / m.beatType) =
        60000 / m.beatsPerMinute * (TempoMarker.quarter / m.beatType)
      rw [div_mul_eq_mul_div]
      norm_num

/-- The pre-bend of 8 quarter-tone steps from the claim's scenario, with the
stored release pitch 0 ("no separate release target"): the code emits the
initial jump to `center + 8` but the reset event at note end carries amount
`center + 0 = center`, not `center + 8`. -/
theorem generateBends_preBend_reset_counterexample :
    generateBends BendEvent.DEFAULT_BEND 0 1000 500 ⟨Note.preBend, 8, 0, 0⟩ =
      ([⟨0, BendEvent.DEFAULT_BEND + 8⟩, ⟨1000, BendEvent.DEFAULT_BEND⟩],
       BendEvent.DEFAULT_BEND) ∧
    (BendEvent.DEFAULT_BEND : ℤ) ≠ BendEvent.DEFAULT_BEND + 8 := by
  constructor
  · norm_num [generateBends, Note.preBend, Note.preBendAndRelease,
      Note.preBendAndHold, Note.normalBend, Note.bendAndHold,
      Note.bendAndRelease, Note.gradualRelease, Note.immediateRelease,
      BendEvent.BEND_QUARTER_TONE]
  · decide

/-- Claim C5, amended: For a note with a pre-bend (`type = preBend`), bend
generation emits exactly one Bend at note start with amount
`center + bentPitch` and one Bend at note end with amount
`center + releasePitch` — the reset amount is computed from the note's
stored release pitch (0 when no release target is stored, so the reset goes
to center), not from the bent amount; the carried-forward active bend
becomes the release amount as well. -/
theorem generateBends_preBend (activePitchBend : ℤ)
    (startTime duration currentTempo : ℚ) (bp rp bdur : ℕ) :
    generateBends activePitchBend startTime duration currentTempo
        ⟨Note.preBend, bp, rp, bdur⟩ =
      ([⟨startTime,
         BendEvent.DEFAULT_BEND + (bp : ℤ) * BendEvent.BEND_QUARTER_TONE⟩,
        ⟨startTime + duration,
         BendEvent.DEFAULT_BEND + (rp : ℤ) * BendEvent.BEND_QUARTER_TONE⟩],
       BendEvent.DEFAULT_BEND + (rp : ℤ) * BendEvent.BEND_QUARTER_TONE) := by
  simp [generateBends, Note.preBend, Note.preBendAndRelease,
    Note.preBendAndHold, Note.normalBend, Note.bendAndHold,
    Note.bendAndRelease, Note.gradualRelease, Note.immediateRelease]

/-- Claim C8: With `fromAmount ≠ toAmount`, `generateGradualBend` emits
exactly `|to − from|` samples; the `i`-th (0-based) sample carries amount
`from ± (i+1)` moving toward `to` — unit steps, monotone — and timestamp
`start + (duration / |to − from|) * (i+1)` — evenly spaced; the final sample
amount is exactly `toAmount`. -/
theorem generateGradualBend_spec (startTime duration : ℚ) (a b : ℤ)
    (h : a ≠ b) :
    (generateGradualBend startTime duration a b).length = (b - a).natAbs ∧
    (∀ i : ℕ, i < (b - a).natAbs →
      ((generateGradualBend startTime duration a b).getD i
          default).pitchBendAmount =
        (if a < b then a + ((i : ℤ) + 1) else a - ((i : ℤ) + 1)) ∧
      ((generateGradualBend startTime duration a b).getD i
          default).timestamp =
        startTime + duration / (((b - a).natAbs : ℕ) : ℚ) * ((i : ℚ) + 1)) ∧
    ((generateGradualBend startTime duration a b).map
        (fun e => e.pitchBendAmount)).getLast? = some b := by
  have hN : (a - b).natAbs = (b - a).natAbs := by
    rw [← Int.natAbs_neg, neg_sub]
  have hlen : (generateGradualBend startTime duration a b).length =
      (a - b).natAbs := by
    simp [generateGradualBend]
  refine ⟨by rw [hlen, hN], ?_, ?_⟩
  · intro i hi
    have hi2 : i < (generateGradualBend startTime duration a b).length := by
      rw [hlen, hN]; exact hi
    rw [List.getD_eq_getElem _ _ hi2]
    refine ⟨?_, ?_⟩ <;> simp [generateGradualBend, hN]
  · have hpos : 0 < (a - b).natAbs := by
      rcases Int.lt_or_lt_of_ne (sub_ne_zero.mpr h) with hlt | hlt <;> omega
    obtain ⟨n, hn⟩ : ∃ n, (a - b).natAbs = n + 1 :=
      ⟨(a - b).natAbs - 1, by omega⟩
    have hb2 : (if a < b then a + ((n : ℤ) + 1) else a - ((n : ℤ) + 1)) = b := by
      by_cases hab : a < b <;> simp only [hab, if_true, if_false] <;> omega
    unfold generateGradualBend
    rw [List.map_map, hn, List.range_succ, List.map_append]
    simp only [List.map_cons, List.map_nil, Function.comp]
    rw [List.getLast?_append_cons]
    simp [hb2]

theorem generateGradualBend_spec_witness :
    ((2 : ℤ) ≠ 5) ∧
    ((generateGradualBend 0 6 2 5).length = ((5 : ℤ) - 2).natAbs ∧
      (∀ i : ℕ, i < ((5 : ℤ) - 2).natAbs →
        ((generateGradualBend 0 6 2 5).getD i default).pitchBendAmount =
          (if (2 : ℤ) < 5 then 2 + ((i : ℤ) + 1) else 2 - ((i : ℤ) + 1)) ∧
        ((generateGradualBend 0 6 2 5).getD i default).timestamp =
          0 + 6 / ((((5 : ℤ) - 2).natAbs : ℕ) : ℚ) * ((i : ℚ) + 1)) ∧
      ((generateGradualBend 0 6 2 5).map
          (fun e => e.pitchBendAmount)).getLast? = some 5) :=
  ⟨by decide, generateGradualBend_spec 0 6 2 5 (by decide)⟩

/-- Claim C4: Evaluation of the code at the failing input: a voice whose only
position carries let-ring.  The code emits the LET_RING_ON transition, but
because the force-close is an `else if` of the same chain it never runs in
the same iteration, so the voice ends with one on-event and zero off-events
— the on/off balance claimed (and intended by the code's own "make sure that
we end the let ring after the last position" comment) fails. -/
theorem letRing_events_unbalanced :
    ((generateEventsForVoice letRingContext 0).events.countP
        MidiEvt.isLetRingOn) = 1 ∧
    ((generateEventsForVoice letRingContext 0).events.countP
        MidiEvt.isLetRingOff) = 0 := by
  decide

/-- Claim C7: For a rest position of whole-note duration type, the walker
emits no event and advances the voice cursor by the whole-rest duration;
that duration is the full measure `tempo * 4 / beatAmount *
beatsPerMeasure`, read from the preceding barline's time signature, when the
rest is the only position in its bar, and the notated duration otherwise. -/
theorem whole_rest_duration_spec (ctx : VoiceContext)
    (prevPosition nextPosition : Option Position) (isLast : Bool)
    (position : Position) (st : VoiceGenState)
    (hRest : position.isRest = true) (hType : position.durationType = 1) :
    (processPosition ctx prevPosition position nextPosition isLast st).events
        = st.events ∧
    (processPosition ctx prevPosition position nextPosition isLast
        st).startTime =
      st.startTime +
        getWholeRestDuration ctx.barlines ctx.voicePositions ctx.tempoMarkers
          ctx.systemIndex position
          (calculateNoteDuration ctx.tempoMarkers ctx.systemIndex position) ∧
    (isOnlyPositionInBar ctx.voicePositions ctx.barlines position = true →
      getWholeRestDuration ctx.barlines ctx.voicePositions ctx.tempoMarkers
          ctx.systemIndex position
          (calculateNoteDuration ctx.tempoMarkers ctx.systemIndex position) =
        getCurrentTempo ctx.tempoMarkers ctx.systemIndex position.position *
            4 /
          ((precedingBarline ctx.barlines
              position.position).timeSignature.beatAmount : ℚ) *
          ((precedingBarline ctx.barlines
              position.position).timeSignature.beatsPerMeasure : ℚ)) ∧
    (isOnlyPositionInBar ctx.voicePositions ctx.barlines position = false →
      getWholeRestDuration ctx.barlines ctx.voicePositions ctx.tempoMarkers
          ctx.systemIndex position
          (calculateNoteDuration ctx.tempoMarkers ctx.systemIndex position) =
        calculateNoteDuration ctx.tempoMarkers ctx.systemIndex position) := by
  refine ⟨?_, ?_, ?_, ?_⟩
  · simp [processPosition, hRest, hType]
  · simp [processPosition, hRest, hType]
  · intro hOnly
    simp [getWholeRestDuration, hOnly]
  · intro hOnly
    simp [getWholeRestDuration, hOnly]

theorem whole_rest_duration_spec_witness :
    (processPosition wholeRestContext none wholeRestPosition none true
        ⟨0, 0, false, 64, []⟩).events = ([] : List MidiEvt) ∧
    (processPosition wholeRestContext none wholeRestPosition none true
        ⟨0, 0, false, 64, []⟩).startTime = 2000 := by
  have h := whole_rest_duration_spec wholeRestContext none none true
    wholeRestPosition ⟨0, 0, false, 64, []⟩ (by decide) (by decide)
  refine ⟨h.1, ?_⟩
  rw [h.2.1, h.2.2.1 (by decide)]
  norm_num [getCurrentTempo, getCurrentTempoMarker, precedingBarline,
    wholeRestContext, wholeRestPosition, TempoMarker.DEFAULT_BEATS_PER_MINUTE,
    TempoMarker.DEFAULT_BEAT_TYPE, TempoMarker.quarter]

theorem mem_insertNoteByString {n m : Note} {l : List Note} :
    m ∈ insertNoteByString n l ↔ m = n ∨ m ∈ l := by
  induction l with
  | nil => simp [insertNoteByString]
  | cons x rest ih =>
      unfold insertNoteByString
      split
      · simp
      · simp [ih]
        tauto

theorem mem_sortNotesByStringAsc {m : Note} {l : List Note} :
    m ∈ sortNotesByStringAsc l ↔ m ∈ l := by
  induction l with
  | nil => simp [sortNotesByStringAsc]
  | cons x rest ih =>
      simp [sortNotesByStringAsc, mem_insertNoteByString, ih]

theorem processNote_plain_arpeggio (ctx : VoiceContext) (position : Position)
    (prevPosition : Option Position) (currentTempo : ℚ)
    (hArp : (position.hasArpeggioDown || position.hasArpeggioUp) = true)
    (hTrem : position.hasTremoloPicking = false)
    (hStacc : position.isStaccato = false)
    (hPalm : position.hasPalmMuting = false)
    (st : NoteLoopState) (n : Note) (hn : plainNote n) :
    processNote ctx position prevPosition none currentTempo st n =
      ⟨st.startTime + ARPEGGIO_OFFSET, st.duration - ARPEGGIO_OFFSET,
       st.activePitchBend,
       st.events ++
         [MidiEvt.playNote ctx.staffIndex (st.startTime + ARPEGGIO_OFFSET)
            (st.duration - ARPEGGIO_OFFSET) (getActualNotePitch n ctx.guitar)
            position.position ctx.systemIndex false
            VelocityType.defaultVelocity,
          MidiEvt.stopNote ctx.staffIndex
            ((st.startTime + ARPEGGIO_OFFSET) +
              (st.duration - ARPEGGIO_OFFSET)) position.position
            ctx.systemIndex (getActualNotePitch n ctx.guitar)]⟩ := by
  obtain ⟨h1, h2, h3, h4, h5, h6, h7, h8⟩ := hn
  simp [processNote, hArp, hTrem, hStacc, hPalm, h1, h2, h3, h4, h5, h6, h7,
    h8, Note.hasSlide, getNoteVelocity, findByString, tiedToNext]

theorem noteFold_arpeggio (ctx : VoiceContext) (position : Position)
    (prevPosition : Option Position) (currentTempo : ℚ)
    (hArp : (position.hasArpeggioDown || position.hasArpeggioUp) = true)
    (hTrem : position.hasTremoloPicking = false)
    (hStacc : position.isStaccato = false)
    (hPalm : position.hasPalmMuting = false) :
    ∀ (notes : List Note), (∀ n ∈ notes, plainNote n) →
      ∀ (s d : ℚ) (apb : ℤ) (evs : List MidiEvt),
        notes.foldl (processNote ctx position prevPosition none currentTempo)
            ⟨s, d, apb, evs⟩ =
          ⟨s + (notes.length : ℚ) * ARPEGGIO_OFFSET,
           d - (notes.length : ℚ) * ARPEGGIO_OFFSET, apb,
           evs ++ arpeggioRender ctx.staffIndex ctx.guitar position.position
             ctx.systemIndex s d notes⟩
  | [], _, s, d, apb, evs => by simp [arpeggioRender]
  | n :: rest, hns, s, d, apb, evs => by
      rw [List.foldl_cons,
        processNote_plain_arpeggio ctx position prevPosition currentTempo
          hArp hTrem hStacc hPalm _ n (hns n (by simp)),
        noteFold_arpeggio ctx position prevPosition currentTempo hArp hTrem
          hStacc hPalm rest (fun m hm => hns m (by simp [hm]))
          (s + ARPEGGIO_OFFSET) (d - ARPEGGIO_OFFSET) apb _]
      simp only [arpeggioRender, List.length_cons, NoteLoopState.mk.injEq]
      refine ⟨by push_cast; ring, by push_cast; ring, trivial, by simp⟩

theorem processPosition_arpeggio_events (ctx : VoiceContext)
    (prevPosition : Option Position) (position : Position) (isLast : Bool)
    (st : VoiceGenState)
    (hUp : position.hasArpeggioUp = true)
    (hDown : position.hasArpeggioDown = false)
    (hRest : position.isRest = false)
    (hAcc : position.isAcciaccatura = false)
    (hVib : position.hasVibrato = false)
    (hWide : position.hasWideVibrato = false)
    (hLR : position.hasLetRing = false)
    (hLRst : st.letRingActive = false)
    (hTrem : position.hasTremoloPicking = false)
    (hStacc : position.isStaccato = false)
    (hPalm : position.hasPalmMuting = false)
    (hNotes : ∀ n ∈ position.notes, plainNote n) :
    (processPosition ctx prevPosition position none isLast st).events =
      st.events ++
        arpeggioRender ctx.staffIndex ctx.guitar position.position
          ctx.systemIndex st.startTime
          (calculateNoteDuration ctx.tempoMarkers ctx.systemIndex position)
          (sortNotesByStringAsc position.notes) := by
  have hArp2 : ((position.sortNotesUp).hasArpeggioDown ||
      (position.sortNotesUp).hasArpeggioUp) = true := by
    simp [Position.sortNotesUp, hDown, hUp]
  have hNotes2 : ∀ n ∈ (position.sortNotesUp).notes, plainNote n := by
    intro n hn
    exact hNotes n (mem_sortNotesByStringAsc.mp hn)
  simp only [processPosition, hRest, hAcc, hDown, hUp, hVib, hWide, hLR,
    hLRst, Bool.false_eq_true, if_false, Bool.or_self, Bool.false_and,
    Bool.and_false, Bool.true_and, Bool.and_true, Bool.not_false,
    Bool.not_true, if_true]
  rw [noteFold_arpeggio ctx position.sortNotesUp prevPosition
    (getCurrentTempo ctx.tempoMarkers ctx.systemIndex position.position)
    hArp2 (by simpa [Position.sortNotesUp] using hTrem)
    (by simpa [Position.sortNotesUp] using hStacc)
    (by simpa [Position.sortNotesUp] using hPalm)
    (position.sortNotesUp).notes hNotes2 st.startTime
    (calculateNoteDuration ctx.tempoMarkers ctx.systemIndex position)
    st.activePitchBend (st.events ++ [])]
  simp [Position.sortNotesUp]

/-- Claim C6, counterexample: A two-note arpeggio-up position processed from
start time 0: the first PlayNote emitted starts at `0 + ARPEGGIO_OFFSET`
(the stagger is applied before the first note too), not at the position's
start time 0 as the claim states. -/
theorem arpeggio_first_note_not_at_start :
    ((processPosition arpeggioContext none arpeggioPosition none true
        ⟨0, 0, false, BendEvent.DEFAULT_BEND, []⟩).events.filter
        MidiEvt.isPlayNote).head? =
      some (MidiEvt.playNote 0 (0 + ARPEGGIO_OFFSET)
        (calculateNoteDuration [] 0 arpeggioPosition - ARPEGGIO_OFFSET)
        (getActualNotePitch plainOpenNote arpeggioContext.guitar) 0 0 false
        VelocityType.defaultVelocity) ∧
    (0 + ARPEGGIO_OFFSET : ℚ) ≠ 0 := by
  constructor
  · rw [processPosition_arpeggio_events arpeggioContext none arpeggioPosition
      true ⟨0, 0, false, BendEvent.DEFAULT_BEND, []⟩ rfl rfl rfl rfl rfl rfl
      rfl rfl rfl rfl rfl (by decide)]
    rfl
  · norm_num [ARPEGGIO_OFFSET]

theorem arpeggioSorted_flags (p : Position) :
    (p.arpeggioSorted).hasArpeggioDown = p.hasArpeggioDown ∧
    (p.arpeggioSorted).hasArpeggioUp = p.hasArpeggioUp ∧
    (p.arpeggioSorted).position = p.position := by
  unfold Position.arpeggioSorted Position.sortNotesDown Position.sortNotesUp
  split
  · exact ⟨rfl, rfl, rfl⟩
  · split
    · exact ⟨rfl, rfl, rfl⟩
    · exact ⟨rfl, rfl, rfl⟩

theorem processNote_arpeggio_time (ctx : VoiceContext) (position : Position)
    (prevPosition nextPosition : Option Position) (currentTempo : ℚ)
    (st : NoteLoopState) (n : Note)
    (hArp : (position.hasArpeggioDown || position.hasArpeggioUp) = true) :
    (processNote ctx position prevPosition nextPosition currentTempo st
        n).startTime = st.startTime + ARPEGGIO_OFFSET ∧
    (processNote ctx position prevPosition nextPosition currentTempo st
        n).duration = st.duration - ARPEGGIO_OFFSET := by
  constructor <;> simp [processNote, hArp]

theorem noteFold_arpeggio_time (ctx : VoiceContext) (position : Position)
    (prevPosition nextPosition : Option Position) (currentTempo : ℚ)
    (hArp : (position.hasArpeggioDown || position.hasArpeggioUp) = true) :
    ∀ (l : List Note) (st : NoteLoopState),
      (l.foldl (processNote ctx position prevPosition nextPosition
          currentTempo) st).startTime =
        st.startTime + (l.length : ℚ) * ARPEGGIO_OFFSET ∧
      (l.foldl (processNote ctx position prevPosition nextPosition
          currentTempo) st).duration =
        st.duration - (l.length : ℚ) * ARPEGGIO_OFFSET
  | [], st => by simp
  | n :: rest, st => by
      rw [List.foldl_cons]
      obtain ⟨h1, h2⟩ := noteFold_arpeggio_time ctx position prevPosition
        nextPosition currentTempo hArp rest
        (processNote ctx position prevPosition nextPosition currentTempo st n)
      obtain ⟨g1, g2⟩ := processNote_arpeggio_time ctx position prevPosition
        nextPosition currentTempo st n hArp
      rw [g1] at h1
      rw [g2] at h2
      rw [h1, h2, List.length_cons]
      constructor
      · push_cast
        ring
      · push_cast
        ring

theorem head_drop_append {α : Type} (E M : List α) (m : ℕ) (x : α)
    (h : (E.drop m).head? = some x) :
    ((E ++ M).drop m).head? = some x := by
  have hm : m ≤ E.length := by
    by_contra hml
    push_neg at hml
    rw [List.drop_eq_nil_of_le (le_of_lt hml)] at h
    simp at h
  rw [List.drop_append_of_le_length hm]
  cases hE : E.drop m with
  | nil =>
      rw [hE] at h
      simp at h
  | cons y t =>
      rw [hE] at h
      simpa using h

theorem tremoloFold_head_drop (staffIndex positionIndex systemIndex : ℕ)
    (muted : Bool) (velocity : VelocityType) (startTime tremDur : ℚ) :
    ∀ (ks : List ℕ) (st3 : ℤ × ℤ × List MidiEvt) (m : ℕ) (x : MidiEvt),
      ((st3.2.2).drop m).head? = some x →
      (((ks.foldl (tremoloStep staffIndex positionIndex systemIndex muted
          velocity startTime tremDur) st3).2.2).drop m).head? = some x
  | [], _, _, _, h => h
  | k :: ks, st3, m, x, h => by
      rw [List.foldl_cons]
      exact tremoloFold_head_drop staffIndex positionIndex systemIndex muted
        velocity startTime tremDur ks
        (tremoloStep staffIndex positionIndex systemIndex muted velocity
          startTime tremDur st3 k) m x
        (head_drop_append _ _ _ _ (head_drop_append _ _ _ _ h))

theorem processNote_untied_head (ctx : VoiceContext) (position : Position)
    (prevPosition nextPosition : Option Position) (currentTempo : ℚ)
    (st : NoteLoopState) (note : Note) (hTied : note.isTied = false) :
    (((processNote ctx position prevPosition nextPosition currentTempo st
        note).events).drop st.events.length).head? =
      some (MidiEvt.playNote ctx.staffIndex
        (if position.hasArpeggioDown || position.hasArpeggioUp then
          st.startTime + ARPEGGIO_OFFSET else st.startTime)
        (if position.hasArpeggioDown || position.hasArpeggioUp then
          st.duration - ARPEGGIO_OFFSET else st.duration)
        (getActualNotePitch note ctx.guitar) position.position
        ctx.systemIndex note.isMuted (getNoteVelocity position note)) := by
  simp only [processNote, hTied, Bool.false_eq_true, if_false]
  by_cases hTr : (position.hasTremoloPicking || note.trill.isSome) = true
  · rw [if_pos hTr]
    by_cases hStop : (!note.hasTieWrap &&
        !tiedToNext nextPosition note) = true
    · rw [if_pos hStop]
      apply head_drop_append
      apply tremoloFold_head_drop
      apply head_drop_append
      rw [List.drop_left]
      rfl
    · rw [if_neg hStop]
      apply tremoloFold_head_drop
      apply head_drop_append
      rw [List.drop_left]
      rfl
  · rw [if_neg hTr]
    by_cases hStop : (!note.hasTieWrap &&
        !tiedToNext nextPosition note) = true
    · rw [if_pos hStop]
      apply head_drop_append
      apply head_drop_append
      rw [List.drop_left]
      rfl
    · rw [if_neg hStop]
      apply head_drop_append
      rw [List.drop_left]
      rfl

/-- Claim C6, amended: For every position carrying an arpeggio-up or
arpeggio-down direction, (1) the position's notes are first reordered by
string (descending for arpeggio-down, ascending for arpeggio-up); the
stagger is then applied before *every* note of the note loop, including the
first: (2)-(3) the loop state entering the k-th sorted note has its start
time advanced, and its duration shortened, by k staggers, so (4) whenever
the k-th sorted note sounds (is not tied), the first event it contributes
is its PlayNote, starting `(k+1)·ARPEGGIO_OFFSET` after the position's
start time and lasting the position's duration minus
`(k+1)·ARPEGGIO_OFFSET` — arpeggiated notes sound in sequence, one stagger
apart; and (5) for a non-rest position, `processPosition`'s events are
exactly those of this note loop run over the sorted notes from the
position's (grace-note-adjusted) start time and duration, after
position-level prefix events. -/
theorem arpeggio_staggered_events (ctx : VoiceContext)
    (prevPosition nextPosition : Option Position) (position : Position)
    (currentTempo : ℚ) (isLast : Bool) (st : VoiceGenState)
    (k : ℕ) (s0 d0 : ℚ) (apb : ℤ) (evs : List MidiEvt)
    (hArp : (position.hasArpeggioDown || position.hasArpeggioUp) = true)
    (hk : k < position.arpeggioSorted.notes.length) :
    position.arpeggioSorted.notes =
      (if position.hasArpeggioDown then sortNotesByStringDesc position.notes
       else sortNotesByStringAsc position.notes) ∧
    ((position.arpeggioSorted.notes.take k).foldl
        (processNote ctx position.arpeggioSorted prevPosition nextPosition
          currentTempo) ⟨s0, d0, apb, evs⟩).startTime =
      s0 + (k : ℚ) * ARPEGGIO_OFFSET ∧
    ((position.arpeggioSorted.notes.take k).foldl
        (processNote ctx position.arpeggioSorted prevPosition nextPosition
          currentTempo) ⟨s0, d0, apb, evs⟩).duration =
      d0 - (k : ℚ) * ARPEGGIO_OFFSET ∧
    ((position.arpeggioSorted.notes.get ⟨k, hk⟩).isTied = false →
      ((((position.arpeggioSorted.notes.take (k + 1)).foldl
            (processNote ctx position.arpeggioSorted prevPosition
              nextPosition currentTempo) ⟨s0, d0, apb, evs⟩).events.drop
          (((position.arpeggioSorted.notes.take k).foldl
              (processNote ctx position.arpeggioSorted prevPosition
                nextPosition currentTempo)
              ⟨s0, d0, apb, evs⟩).events.length)).head? =
        some (MidiEvt.playNote ctx.staffIndex
          (s0 + ((k : ℚ) + 1) * ARPEGGIO_OFFSET)
          (d0 - ((k : ℚ) + 1) * ARPEGGIO_OFFSET)
          (getActualNotePitch (position.arpeggioSorted.notes.get ⟨k, hk⟩)
            ctx.guitar)
          position.position ctx.systemIndex
          (position.arpeggioSorted.notes.get ⟨k, hk⟩).isMuted
          (getNoteVelocity position.arpeggioSorted
            (position.arpeggioSorted.notes.get ⟨k, hk⟩))))) ∧
    (position.isRest = false →
      ∃ prefixEvents : List MidiEvt,
        (processPosition ctx prevPosition position nextPosition isLast
            st).events =
          (position.arpeggioSorted.notes.foldl
            (processNote ctx position.arpeggioSorted prevPosition
              nextPosition
              (getCurrentTempo ctx.tempoMarkers ctx.systemIndex
                position.position))
            ⟨(if position.isAcciaccatura then
                st.startTime - GRACE_NOTE_DURATION else st.startTime),
             (if position.isAcciaccatura then GRACE_NOTE_DURATION
              else calculateNoteDuration ctx.tempoMarkers ctx.systemIndex
                position),
             st.activePitchBend,
             st.events ++ prefixEvents⟩).events) := by
  have hflags := arpeggioSorted_flags position
  have hArpS : ((position.arpeggioSorted).hasArpeggioDown ||
      (position.arpeggioSorted).hasArpeggioUp) = true := by
    rw [hflags.1, hflags.2.1]
    exact hArp
  have hlen : ((position.arpeggioSorted).notes.take k).length = k := by
    rw [List.length_take]
    exact min_eq_left (le_of_lt hk)
  obtain ⟨ht1, ht2⟩ := noteFold_arpeggio_time ctx position.arpeggioSorted
    prevPosition nextPosition currentTempo hArpS
    ((position.arpeggioSorted).notes.take k) ⟨s0, d0, apb, evs⟩
  have hs0 : (⟨s0, d0, apb, evs⟩ : NoteLoopState).startTime = s0 := rfl
  have hd0 : (⟨s0, d0, apb, evs⟩ : NoteLoopState).duration = d0 := rfl
  rw [hlen, hs0] at ht1
  rw [hlen, hd0] at ht2
  refine ⟨?_, ht1, ht2, ?_, ?_⟩
  · unfold Position.arpeggioSorted
    cases hD : position.hasArpeggioDown with
    | true => simp [Position.sortNotesDown]
    | false =>
        have hU : position.hasArpeggioUp = true := by
          rw [hD] at hArp
          simpa using hArp
        simp [hD, hU, Position.sortNotesUp]
  · intro hUntied
    have htake : (position.arpeggioSorted).notes.take (k + 1) =
        (position.arpeggioSorted).notes.take k ++
          [(position.arpeggioSorted).notes.get ⟨k, hk⟩] := by
      rw [List.take_succ, List.getElem?_eq_getElem hk]
      rfl
    rw [htake, List.foldl_append, List.foldl_cons, List.foldl_nil]
    have hhead := processNote_untied_head ctx position.arpeggioSorted
      prevPosition nextPosition currentTempo
      (((position.arpeggioSorted).notes.take k).foldl
        (processNote ctx position.arpeggioSorted prevPosition nextPosition
          currentTempo) ⟨s0, d0, apb, evs⟩)
      ((position.arpeggioSorted).notes.get ⟨k, hk⟩) hUntied
    rw [if_pos hArpS, if_pos hArpS] at hhead
    rw [hhead, ht1, ht2, hflags.2.2]
    simp only [Option.some.injEq, MidiEvt.playNote.injEq]
    simp
    constructor <;> ring
  · intro hRest
    simp only [processPosition, hRest, Bool.false_eq_true, if_false]
    by_cases hVib : (position.hasVibrato || position.hasWideVibrato) = true
    · rw [if_pos hVib, List.append_assoc]
      exact ⟨_, rfl⟩
    · rw [if_neg hVib]
      exact ⟨_, rfl⟩

theorem arpeggio_staggered_events_witness :
    arpeggioPosition.arpeggioSorted.notes =
      (if arpeggioPosition.hasArpeggioDown then
        sortNotesByStringDesc arpeggioPosition.notes
       else sortNotesByStringAsc arpeggioPosition.notes) ∧
    ((arpeggioPosition.arpeggioSorted.notes.take 0).foldl
        (processNote arpeggioContext arpeggioPosition.arpeggioSorted none
          none 500) ⟨0, 500, BendEvent.DEFAULT_BEND, []⟩).startTime =
      0 + ((0 : ℕ) : ℚ) * ARPEGGIO_OFFSET ∧
    ((arpeggioPosition.arpeggioSorted.notes.take 0).foldl
        (processNote arpeggioContext arpeggioPosition.arpeggioSorted none
          none 500) ⟨0, 500, BendEvent.DEFAULT_BEND, []⟩).duration =
      500 - ((0 : ℕ) : ℚ) * ARPEGGIO_OFFSET ∧
    (plainOpenNote.isTied = false →
      ((((arpeggioPosition.arpeggioSorted.notes.take (0 + 1)).foldl
            (processNote arpeggioContext arpeggioPosition.arpeggioSorted
              none none 500) ⟨0, 500, BendEvent.DEFAULT_BEND, []⟩).events.drop
          (((arpeggioPosition.arpeggioSorted.notes.take 0).foldl
              (processNote arpeggioContext arpeggioPosition.arpeggioSorted
                none none 500)
              ⟨0, 500, BendEvent.DEFAULT_BEND, []⟩).events.length)).head? =
        some (MidiEvt.playNote arpeggioContext.staffIndex
          (0 + (((0 : ℕ) : ℚ) + 1) * ARPEGGIO_OFFSET)
          (500 - (((0 : ℕ) : ℚ) + 1) * ARPEGGIO_OFFSET)
          (getActualNotePitch plainOpenNote arpeggioContext.guitar)
          arpeggioPosition.position arpeggioContext.systemIndex
          plainOpenNote.isMuted
          (getNoteVelocity arpeggioPosition.arpeggioSorted
            plainOpenNote)))) ∧
    (arpeggioPosition.isRest = false →
      ∃ prefixEvents : List MidiEvt,
        (processPosition arpeggioContext none arpeggioPosition none false
            ⟨0, 0, false, BendEvent.DEFAULT_BEND, []⟩).events =
          (arpeggioPosition.arpeggioSorted.notes.foldl
            (processNote arpeggioContext arpeggioPosition.arpeggioSorted
              none none
              (getCurrentTempo arpeggioContext.tempoMarkers
                arpeggioContext.systemIndex arpeggioPosition.position))
            ⟨(if arpeggioPosition.isAcciaccatura then
                (0 : ℚ) - GRACE_NOTE_DURATION else 0),
             (if arpeggioPosition.isAcciaccatura then GRACE_NOTE_DURATION
              else calculateNoteDuration arpeggioContext.tempoMarkers
                arpeggioContext.systemIndex arpeggioPosition),
             (⟨0, 0, false, BendEvent.DEFAULT_BEND, []⟩ :
               VoiceGenState).activePitchBend,
             [] ++ prefixEvents⟩).events) :=
  arpeggio_staggered_events arpeggioContext none none arpeggioPosition 500
    false ⟨0, 0, false, BendEvent.DEFAULT_BEND, []⟩ 0 0 500
    BendEvent.DEFAULT_BEND [] (by decide) (by decide)

theorem tied_note_events_shape (ctx : VoiceContext) (position : Position)
    (prevPosition nextPosition : Option Position) (currentTempo : ℚ)
    (st : NoteLoopState) (note : Note)
    (hTied : note.isTied = true)
    (hTrem : position.hasTremoloPicking = false)
    (hTrill : note.trill = none)
    (hWrap : note.hasTieWrap = false)
    (hNext : tiedToNext nextPosition note = false) :
    (processNote ctx position prevPosition nextPosition currentTempo st
        note).events =
      st.events ++
        ((if note.hasSlide then
            generateSlides
              (if position.hasArpeggioDown || position.hasArpeggioUp then
                st.startTime + ARPEGGIO_OFFSET else st.startTime)
              (if position.hasArpeggioDown || position.hasArpeggioUp then
                st.duration - ARPEGGIO_OFFSET else st.duration)
              currentTempo note.slideOutOf note.slideInto
          else []) ++
          (match note.bend with
           | some bd => (generateBends st.activePitchBend
               (if position.hasArpeggioDown || position.hasArpeggioUp then
                 st.startTime + ARPEGGIO_OFFSET else st.startTime)
               (if position.hasArpeggioDown || position.hasArpeggioUp then
                 st.duration - ARPEGGIO_OFFSET else st.duration)
               currentTempo bd).1
           | none => [])).map (fun e =>
            MidiEvt.bendEvent ctx.staffIndex e.timestamp position.position
              ctx.systemIndex e.pitchBendAmount) ++
        [MidiEvt.stopNote ctx.staffIndex
          ((if position.hasArpeggioDown || position.hasArpeggioUp then
              st.startTime + ARPEGGIO_OFFSET else st.startTime) +
            (if position.isStaccato then
              (if position.hasArpeggioDown || position.hasArpeggioUp then
                st.duration - ARPEGGIO_OFFSET else st.duration) / 2
             else if position.hasPalmMuting then
              (if position.hasArpeggioDown || position.hasArpeggioUp then
                st.duration - ARPEGGIO_OFFSET else st.duration) / (23 / 20)
             else
              (if position.hasArpeggioDown || position.hasArpeggioUp then
                st.duration - ARPEGGIO_OFFSET else st.duration)))
          position.position ctx.systemIndex
          (tiedPitch ctx.guitar prevPosition note)] := by
  simp [processNote, hTied, hTrem, hTrill, hWrap, hNext]
  cases note.bend <;> rfl

/-- Claim C9, amended: For a note tied to its predecessor — in a position
without tremolo picking and without a trill, whose tie chain ends here (no
tie wrap, not tied-to by the next position's note) — the note-loop step
emits no PlayNote event, and the StopNote it emits carries the resolved
pitch of the adjacent previous note on the same string in the same voice,
falling back to the note's own resolved pitch when no such adjacent note
exists (`tiedPitch`).  (A tremolo-picking or trill subdivision would emit
its own PlayNote/StopNote pairs even for a tied note — see the
counterexample — which is what the amendment excludes.) -/
theorem tied_note_no_play_and_stop_pitch (ctx : VoiceContext)
    (position : Position) (prevPosition nextPosition : Option Position)
    (currentTempo : ℚ) (st : NoteLoopState) (note : Note)
    (hTied : note.isTied = true)
    (hTrem : position.hasTremoloPicking = false)
    (hTrill : note.trill = none)
    (hWrap : note.hasTieWrap = false)
    (hNext : tiedToNext nextPosition note = false) :
    (∀ e ∈ ((processNote ctx position prevPosition nextPosition currentTempo
        st note).events).drop st.events.length, e.isPlayNote = false) ∧
    ∃ t : ℚ,
      ((processNote ctx position prevPosition nextPosition currentTempo st
          note).events).getLast? =
        some (MidiEvt.stopNote ctx.staffIndex t position.position
          ctx.systemIndex (tiedPitch ctx.guitar prevPosition note)) := by
  rw [tied_note_events_shape ctx position prevPosition nextPosition
    currentTempo st note hTied hTrem hTrill hWrap hNext]
  constructor
  · intro e he
    rw [List.append_assoc, List.drop_left] at he
    rcases List.mem_append.mp he with hA | hB
    · obtain ⟨x, hx, rfl⟩ := List.mem_map.mp hA
      rfl
    · simp only [List.mem_singleton] at hB
      subst hB
      rfl
  · rw [List.getLast?_append_cons]
    exact ⟨_, rfl⟩

/-- Claim C9, counterexample: A note tied to its predecessor inside a
tremolo-picking position: the tremolo subdivision emits a PlayNote for the
tied note (at tempo 4000 ms/quarter the 500 ms note holds one 32nd-note
subdivision), so "no PlayNote event is emitted" is false as stated. -/
theorem tied_note_playnote_emitted :
    tiedNote.isTied = true ∧
    ((processNote tremoloContext tremoloPosition none none 4000
        ⟨0, 500, BendEvent.DEFAULT_BEND, []⟩ tiedNote).events.countP
      MidiEvt.isPlayNote) = 1 := by
  refine ⟨rfl, ?_⟩
  have hflo : (Int.floor ((500 : ℚ) / (4000 / 8))).toNat = 1 := by
    have h1 : ((500 : ℚ) / (4000 / 8)) = 1 := by norm_num
    rw [h1, Int.floor_one]
    rfl
  simp [processNote, tremoloStep, tiedToNext, findByString, hflo, tiedNote,
    plainOpenNote, tremoloPosition, tremoloContext, Note.hasSlide,
    MidiEvt.isPlayNote, List.range_succ, List.countP_cons, List.countP_nil,
    List.countP_append]

theorem tied_note_no_play_and_stop_pitch_witness :
    (∀ e ∈ ((processNote tiedContext tiedPosition (some tiedPrevPosition)
        none 500 ⟨500, 500, BendEvent.DEFAULT_BEND, []⟩
        tiedNote).events).drop
        ((⟨500, 500, BendEvent.DEFAULT_BEND, []⟩ :
          NoteLoopState).events.length),
      e.isPlayNote = false) ∧
    ∃ t : ℚ,
      ((processNote tiedContext tiedPosition (some tiedPrevPosition) none 500
          ⟨500, 500, BendEvent.DEFAULT_BEND, []⟩
          tiedNote).events).getLast? =
        some (MidiEvt.stopNote tiedContext.staffIndex t
          tiedPosition.position tiedContext.systemIndex
          (tiedPitch tiedContext.guitar (some tiedPrevPosition) tiedNote)) :=
  tied_note_no_play_and_stop_pitch tiedContext tiedPosition
    (some tiedPrevPosition) none 500 ⟨500, 500, BendEvent.DEFAULT_BEND, []⟩
    tiedNote rfl rfl rfl rfl rfl
end PTE











